import Mathlib

/-!
# Verification of the contract-lifecycle / inventory-reservation engine

Shallow embedding of the contract and inventory core of `src/main.py`
(a FastAPI application backed by in-memory dicts).

Modelling conventions:

* Python floats for quantities and prices become `ℚ` (exact arithmetic on the
  numeric values the code manipulates).
* The dict collections `products_db` / `contracts_db` become association lists
  `List (String × _)`; `d.get(k)` is `lookupA`, and `d[k] = v` (set/overwrite)
  is `setk`.
* Each endpoint becomes a function of its resolved caller (the session layer
  `get_current_user_email` yields a user id and type), its request fields, the
  freshly generated uuid (`generate_id()` becomes an explicit argument) and the
  current timestamp (`datetime.now().isoformat()` becomes an explicit `now`
  string), returning `Except ApiError DB`.
* Each `raise HTTPException` site is one `ApiError` constructor.  In every
  endpoint the Python raises happen before the in-place dict mutations, except
  for the `products_db[...]` bare-index lookups which in Python would raise
  `KeyError` after the contract dict was already mutated; those paths are
  modelled as `ApiError.missingProduct` and are unreachable in any state where
  every contract references an existing product (products are never deleted).
* `updated_at`/`created_at` bookkeeping strings are carried where the contract
  claims mention them and irrelevant timestamps (`updated_at` on products) are
  dropped: no claim mentions them.
-/

inductive UserType where
  | farmer
  | trader
deriving DecidableEq

inductive UnitType where
  | kg
  | tonne
deriving DecidableEq

/-- `UnitType.value` in the Python enum (`"kg"` / `"tonne"`). -/
def UnitType.val : UnitType → String
  | .kg => "kg"
  | .tonne => "tonne"

inductive ContractStatus where
  | PENDING
  | ACTIVE
  | REJECTED
  | CANCELLED
  | COMPLETED
deriving DecidableEq

inductive CreatedBy where
  | farmer
  | trader
deriving DecidableEq

/-- `CreatedBy.value` in the Python enum. -/
def CreatedBy.val : CreatedBy → String
  | .farmer => "farmer"
  | .trader => "trader"

/-- The caller as resolved by the session layer: its `_id` and its `type`. -/
structure User where
  id : String
  utype : UserType
deriving DecidableEq

/-- A listing (`products_db` record) from `src/main.py`. -/
structure Product where
  farmer_id : String
  ptype : String
  total_qty : ℚ
  available_qty : ℚ
  reserved_qty : ℚ
  committed_qty : ℚ
  unit : String
  is_active : Bool
deriving DecidableEq

/-- A contract (`contracts_db` record) from `src/main.py`.  The Python dict
only ever receives a `cancelled_by` key never (no line writes it); it is kept
here as an `Option` that stays `none`, mirroring the absent key. -/
structure Contract where
  farmer_id : String
  trader_id : Option String
  product_id : String
  product_type : String
  price_per_unit : ℚ
  qty : ℚ
  unit : String
  total_value : ℚ
  status : ContractStatus
  created_by : CreatedBy
  created_at : String
  accepted_at : Option String
  accepted_by : Option String
  completed_at : Option String
  completed_by : Option String
  rejected_at : Option String
  rejected_by : Option String
  cancelled_at : Option String
  cancelled_by : Option String
  rejection_reason : Option String
  expected_delivery_date : Option String
  notes : Option String
deriving DecidableEq

/-- The two mutable collections the contract engine touches. -/
structure DB where
  products : List (String × Product)
  contracts : List (String × Contract)
deriving DecidableEq

/-- `d.get(k)` on a Python dict, on the association-list model. -/
def lookupA {α : Type} (k : String) : List (String × α) → Option α
  | [] => none
  | (k', v) :: t => if k = k' then some v else lookupA k t

/-- `d[k] = v` on a Python dict: overwrite the key if present, else add it. -/
def setk {α : Type} (k : String) (v : α) : List (String × α) → List (String × α)
  | [] => [(k, v)]
  | (k', v') :: t => if k = k' then (k, v) :: t else (k', v') :: setk k v t

/-- One constructor per `raise HTTPException` site of the contract/product
endpoints (status code and detail string of the site recorded in the name),
plus `missingProduct` for the Python `KeyError` a bare `products_db[...]`
index would raise. -/
inductive ApiError where
  | onlyFarmersList
  | onlyFarmersCreate
  | productNotFound
  | notYourProduct
  | insufficientForContract (available : ℚ) (unit : String)
  | onlyTradersCreate
  | productFarmerMismatch
  | qtyExceedsAvailable (available : ℚ) (unit : String)
  | onlyTradersAccept
  | contractNotFound
  | notFarmerCreated
  | contractNotPending
  | onlyFarmersAccept
  | notTraderCreated
  | contractNotForYou
  | insufficientAvailable (available : ℚ) (unit : String)
  | onlyTradersReject
  | onlyNamedFarmerReject
  | onlyCreatorCancel
  | contractNotActive
  | notPartOfContract
  | missingProduct
deriving DecidableEq

/-- `POST /api/farmer/list-product` (`list_product`, src/main.py lines
443-473): a farmer lists a new product with
`total_qty = available_qty = qty`, `reserved_qty = committed_qty = 0`. -/
def list_product (user : User) (ptype : String) (qty : ℚ) (unit : UnitType)
    (pid : String) (db : DB) : Except ApiError DB :=
  if user.utype ≠ UserType.farmer then .error .onlyFarmersList
  else
    let product : Product :=
      { farmer_id := user.id, ptype := ptype, total_qty := qty,
        available_qty := qty, reserved_qty := 0, committed_qty := 0,
        unit := unit.val, is_active := true }
    .ok { db with products := setk pid product db.products }

/-- Request body of `POST /api/farmer/create-contract`.  The pydantic layer
enforces `price_per_unit > 0` and `qty > 0` (`Field(gt=0)`) before the handler
runs; those bounds appear as hypotheses on the reachability relation. -/
structure CreateContractByFarmerRequest where
  product_id : String
  price_per_unit : ℚ
  qty : ℚ
  unit : UnitType
  expected_delivery_date : Option String
  notes : Option String

/-- Request body of `POST /api/trader/create-contract`. -/
structure CreateContractByTraderRequest where
  farmer_id : String
  product_id : String
  price_per_unit : ℚ
  qty : ℚ
  unit : UnitType
  expected_delivery_date : Option String
  notes : Option String

/-- `POST /api/farmer/create-contract` (`create_contract_by_farmer`,
src/main.py lines 561-620): producer-initiated proposal.  Checks, in source
order: caller is a farmer; product exists; caller owns it;
`qty ≤ available_qty - reserved_qty`.  On success stores a PENDING contract
and performs `reserved_qty += qty`. -/
def create_contract_by_farmer (user : User) (req : CreateContractByFarmerRequest)
    (cid now : String) (db : DB) : Except ApiError DB :=
  if user.utype ≠ UserType.farmer then .error .onlyFarmersCreate
  else
    match lookupA req.product_id db.products with
    | none => .error .productNotFound
    | some product =>
      if product.farmer_id ≠ user.id then .error .notYourProduct
      else
        let available_for_contract := product.available_qty - product.reserved_qty
        if req.qty > available_for_contract then
          .error (.insufficientForContract available_for_contract product.unit)
        else
          let contract : Contract :=
            { farmer_id := user.id, trader_id := none,
              product_id := req.product_id, product_type := product.ptype,
              price_per_unit := req.price_per_unit, qty := req.qty,
              unit := req.unit.val,
              total_value := req.price_per_unit * req.qty,
              status := .PENDING, created_by := .farmer, created_at := now,
              accepted_at := none, accepted_by := none, completed_at := none,
              completed_by := none, rejected_at := none, rejected_by := none,
              cancelled_at := none, cancelled_by := none,
              rejection_reason := none,
              expected_delivery_date := req.expected_delivery_date,
              notes := req.notes }
          let product' := { product with reserved_qty := product.reserved_qty + req.qty }
          .ok { products := setk req.product_id product' db.products,
                contracts := setk cid contract db.contracts }

/-- `POST /api/trader/create-contract` (`create_contract_by_trader`,
src/main.py lines 622-679): buyer-initiated proposal.  Checks, in source
order: caller is a trader; product exists; `farmer_id` of the request matches
the product's owner; `qty ≤ available_qty`.  Note: `is_active` is NOT
checked.  On success stores a PENDING contract; no listing counter changes
("No quantity changes for trader-created contracts until farmer accepts"). -/
def create_contract_by_trader (user : User) (req : CreateContractByTraderRequest)
    (cid now : String) (db : DB) : Except ApiError DB :=
  if user.utype ≠ UserType.trader then .error .onlyTradersCreate
  else
    match lookupA req.product_id db.products with
    | none => .error .productNotFound
    | some product =>
      if req.farmer_id ≠ product.farmer_id then .error .productFarmerMismatch
      else if req.qty > product.available_qty then
        .error (.qtyExceedsAvailable product.available_qty product.unit)
      else
        let contract : Contract :=
          { farmer_id := req.farmer_id, trader_id := some user.id,
            product_id := req.product_id, product_type := product.ptype,
            price_per_unit := req.price_per_unit, qty := req.qty,
            unit := req.unit.val,
            total_value := req.price_per_unit * req.qty,
            status := .PENDING, created_by := .trader, created_at := now,
            accepted_at := none, accepted_by := none, completed_at := none,
            completed_by := none, rejected_at := none, rejected_by := none,
            cancelled_at := none, cancelled_by := none,
            rejection_reason := none,
            expected_delivery_date := req.expected_delivery_date,
            notes := req.notes }
        .ok { db with contracts := setk cid contract db.contracts }

/-- `POST /api/trader/accept-contract` (`trader_accept_contract`, src/main.py
lines 681-718): a trader accepts a farmer-created PENDING contract.  Checks:
caller is a trader; contract exists; `created_by == "farmer"`;
`status == "PENDING"`.  There is NO quantity re-check.  On success the
contract becomes ACTIVE with `accepted_at`/`accepted_by`/`trader_id` set, and
the listing gets `reserved_qty -= qty; committed_qty += qty;
available_qty -= qty`. -/
def trader_accept_contract (user : User) (cid now : String) (db : DB) :
    Except ApiError DB :=
  if user.utype ≠ UserType.trader then .error .onlyTradersAccept
  else
    match lookupA cid db.contracts with
    | none => .error .contractNotFound
    | some c =>
      if c.created_by ≠ CreatedBy.farmer then .error .notFarmerCreated
      else if c.status ≠ ContractStatus.PENDING then .error .contractNotPending
      else
        match lookupA c.product_id db.products with
        | none => .error .missingProduct
        | some p =>
          let c' := { c with trader_id := some user.id,
                             status := ContractStatus.ACTIVE,
                             accepted_at := some now,
                             accepted_by := some user.id }
          let p' := { p with reserved_qty := p.reserved_qty - c.qty,
                             committed_qty := p.committed_qty + c.qty,
                             available_qty := p.available_qty - c.qty }
          .ok { products := setk c.product_id p' db.products,
                contracts := setk cid c' db.contracts }

/-- `POST /api/farmer/accept-contract` (`farmer_accept_contract`, src/main.py
lines 720-765): the named farmer accepts a trader-created PENDING contract.
Checks, in source order: caller is a farmer; contract exists;
`created_by == "trader"`; `status == "PENDING"`; the caller is the named
farmer; then the accept-time quantity re-check `qty ≤ available_qty` (raised
before any mutation).  On success the contract becomes ACTIVE with
`accepted_at`/`accepted_by` set and the listing gets `available_qty -= qty;
committed_qty += qty`. -/
def farmer_accept_contract (user : User) (cid now : String) (db : DB) :
    Except ApiError DB :=
  if user.utype ≠ UserType.farmer then .error .onlyFarmersAccept
  else
    match lookupA cid db.contracts with
    | none => .error .contractNotFound
    | some c =>
      if c.created_by ≠ CreatedBy.trader then .error .notTraderCreated
      else if c.status ≠ ContractStatus.PENDING then .error .contractNotPending
      else if c.farmer_id ≠ user.id then .error .contractNotForYou
      else
        match lookupA c.product_id db.products with
        | none => .error .missingProduct
        | some p =>
          if c.qty > p.available_qty then
            .error (.insufficientAvailable p.available_qty p.unit)
          else
            let c' := { c with status := ContractStatus.ACTIVE,
                               accepted_at := some now,
                               accepted_by := some user.id }
            let p' := { p with available_qty := p.available_qty - c.qty,
                               committed_qty := p.committed_qty + c.qty }
            .ok { products := setk c.product_id p' db.products,
                  contracts := setk cid c' db.contracts }

/-- `POST /api/reject-contract` (`reject_contract`, src/main.py lines
767-807): the counterparty rejects a PENDING contract.  Checks: contract
exists; `status == "PENDING"`; if farmer-created the caller must be a trader,
else the caller must be the named farmer.  On success the contract becomes
REJECTED with `rejected_at`/`rejected_by`/`rejection_reason` set, and if
farmer-created the listing gets `reserved_qty -= qty` (unconditionally: no
negativity check exists in the source). -/
def reject_contract (user : User) (cid : String) (reason : Option String)
    (now : String) (db : DB) : Except ApiError DB :=
  match lookupA cid db.contracts with
  | none => .error .contractNotFound
  | some c =>
    if c.status ≠ ContractStatus.PENDING then .error .contractNotPending
    else if c.created_by = CreatedBy.farmer ∧ user.utype ≠ UserType.trader then
      .error .onlyTradersReject
    else if c.created_by = CreatedBy.trader ∧
        (user.utype ≠ UserType.farmer ∨ c.farmer_id ≠ user.id) then
      .error .onlyNamedFarmerReject
    else
      let c' := { c with status := ContractStatus.REJECTED,
                         rejected_at := some now,
                         rejected_by := some user.id,
                         rejection_reason := reason }
      if c.created_by = CreatedBy.farmer then
        match lookupA c.product_id db.products with
        | none => .error .missingProduct
        | some p =>
          let p' := { p with reserved_qty := p.reserved_qty - c.qty }
          .ok { products := setk c.product_id p' db.products,
                contracts := setk cid c' db.contracts }
      else .ok { db with contracts := setk cid c' db.contracts }

/-- `POST /api/cancel-contract` (`cancel_contract`, src/main.py lines
809-845): the creator cancels their own PENDING contract.  Checks: contract
exists; `status == "PENDING"`; the caller is the creator (the owning farmer
for farmer-created, the creating trader for trader-created).  On success the
contract becomes CANCELLED with `cancelled_at` set — the source writes no
`cancelled_by` / acting-party id — and if farmer-created the listing gets
`reserved_qty -= qty` (again with no negativity check). -/
def cancel_contract (user : User) (cid now : String) (db : DB) :
    Except ApiError DB :=
  match lookupA cid db.contracts with
  | none => .error .contractNotFound
  | some c =>
    if c.status ≠ ContractStatus.PENDING then .error .contractNotPending
    else if c.created_by = CreatedBy.farmer ∧
        (user.utype ≠ UserType.farmer ∨ c.farmer_id ≠ user.id) then
      .error .onlyCreatorCancel
    else if c.created_by = CreatedBy.trader ∧
        (user.utype ≠ UserType.trader ∨ c.trader_id ≠ some user.id) then
      .error .onlyCreatorCancel
    else
      let c' := { c with status := ContractStatus.CANCELLED,
                         cancelled_at := some now }
      if c.created_by = CreatedBy.farmer then
        match lookupA c.product_id db.products with
        | none => .error .missingProduct
        | some p =>
          let p' := { p with reserved_qty := p.reserved_qty - c.qty }
          .ok { products := setk c.product_id p' db.products,
                contracts := setk cid c' db.contracts }
      else .ok { db with contracts := setk cid c' db.contracts }

/-- `POST /api/complete-contract` (`complete_contract`, src/main.py lines
847-880): either party completes an ACTIVE contract.  Checks: contract
exists; `status == "ACTIVE"`; the caller's id is the contract's `farmer_id`
or `trader_id`.  On success the contract becomes COMPLETED with
`completed_at` set and `completed_by` set to the ROLE string sent in the
request body (`request.completed_by.value`), not to the acting user's id;
the listing gets `committed_qty -= qty; total_qty -= qty`. -/
def complete_contract (user : User) (cid : String) (completedBy : CreatedBy)
    (now : String) (db : DB) : Except ApiError DB :=
  match lookupA cid db.contracts with
  | none => .error .contractNotFound
  | some c =>
    if c.status ≠ ContractStatus.ACTIVE then .error .contractNotActive
    else if ¬ (user.id = c.farmer_id ∨ c.trader_id = some user.id) then
      .error .notPartOfContract
    else
      let c' := { c with status := ContractStatus.COMPLETED,
                         completed_at := some now,
                         completed_by := some completedBy.val }
      match lookupA c.product_id db.products with
      | none => .error .missingProduct
      | some p =>
        let p' := { p with committed_qty := p.committed_qty - c.qty,
                           total_qty := p.total_qty - c.qty }
        .ok { products := setk c.product_id p' db.products,
              contracts := setk cid c' db.contracts }

/-- One successful call of a contract-engine endpoint.  Fresh-uuid arguments
(`generate_id()` yields an unused uuid4) appear as `lookupA _ = none`
hypotheses on the creating steps, and the pydantic `Field(gt=0)` bounds on
`qty` / `price_per_unit` appear as positivity hypotheses.  Failed calls raise
and leave the store unchanged, so they induce no step. -/
inductive Step : DB → DB → Prop where
  | listProduct (db db' : DB) (u : User) (ptype : String) (qty : ℚ)
      (unit : UnitType) (pid : String)
      (hq : 0 < qty)
      (hfresh : lookupA pid db.products = none)
      (hok : list_product u ptype qty unit pid db = .ok db') : Step db db'
  | createByFarmer (db db' : DB) (u : User) (req : CreateContractByFarmerRequest)
      (cid now : String)
      (hq : 0 < req.qty) (hp : 0 < req.price_per_unit)
      (hfresh : lookupA cid db.contracts = none)
      (hok : create_contract_by_farmer u req cid now db = .ok db') : Step db db'
  | createByTrader (db db' : DB) (u : User) (req : CreateContractByTraderRequest)
      (cid now : String)
      (hq : 0 < req.qty) (hp : 0 < req.price_per_unit)
      (hfresh : lookupA cid db.contracts = none)
      (hok : create_contract_by_trader u req cid now db = .ok db') : Step db db'
  | traderAccept (db db' : DB) (u : User) (cid now : String)
      (hok : trader_accept_contract u cid now db = .ok db') : Step db db'
  | farmerAccept (db db' : DB) (u : User) (cid now : String)
      (hok : farmer_accept_contract u cid now db = .ok db') : Step db db'
  | reject (db db' : DB) (u : User) (cid : String) (reason : Option String)
      (now : String)
      (hok : reject_contract u cid reason now db = .ok db') : Step db db'
  | cancel (db db' : DB) (u : User) (cid now : String)
      (hok : cancel_contract u cid now db = .ok db') : Step db db'
  | complete (db db' : DB) (u : User) (cid : String) (cb : CreatedBy)
      (now : String)
      (hok : complete_contract u cid cb now db = .ok db') : Step db db'

/-- The store before any request is served (the claims concern listings
created through `list_product`, so the seeded demo data is irrelevant and the
initial store is empty). -/
def emptyDB : DB := { products := [], contracts := [] }

/-- A store is reachable when some sequence of successful endpoint calls
produces it from the empty store. -/
def Reachable (db : DB) : Prop := Relation.ReflTransGen Step emptyDB db

theorem lookupA_setk_self {α : Type} (k : String) (v : α) (l : List (String × α)) :
    lookupA k (setk k v l) = some v := by
  induction l with
  | nil => simp [setk, lookupA]
  | cons e t ih =>
    obtain ⟨k', v'⟩ := e
    by_cases h : k = k' <;> simp [setk, lookupA, h, ih]

theorem lookupA_setk_ne {α : Type} {k k' : String} (h : k' ≠ k) (v : α)
    (l : List (String × α)) : lookupA k' (setk k v l) = lookupA k' l := by
  induction l with
  | nil => simp [setk, lookupA, h]
  | cons e t ih =>
    obtain ⟨k₀, v₀⟩ := e
    by_cases hk : k = k₀
    · subst hk
      simp [setk, lookupA, h, ih]
    · by_cases hk' : k' = k₀ <;> simp [setk, lookupA, hk, hk', ih]

theorem mem_setk {α : Type} {e : String × α} {k : String} {v : α}
    {l : List (String × α)} (h : e ∈ setk k v l) : e = (k, v) ∨ e ∈ l := by
  induction l with
  | nil => simpa [setk] using h
  | cons e₀ t ih =>
    obtain ⟨k₀, v₀⟩ := e₀
    by_cases hk : k = k₀
    · subst hk
      rcases (by simpa [setk] using h : e = (k, v) ∨ e ∈ t) with h' | h'
      · exact Or.inl h'
      · exact Or.inr (List.mem_cons_of_mem _ h')
    · rcases (by simpa [setk, hk] using h : e = (k₀, v₀) ∨ e ∈ setk k v t) with h' | h'
      · exact Or.inr (by simp [h'])
      · rcases ih h' with h'' | h''
        · exact Or.inl h''
        · exact Or.inr (List.mem_cons_of_mem _ h'')

theorem lookupA_mem {α : Type} {k : String} {v : α} {l : List (String × α)}
    (h : lookupA k l = some v) : (k, v) ∈ l := by
  induction l with
  | nil => simp [lookupA] at h
  | cons e t ih =>
    obtain ⟨k₀, v₀⟩ := e
    by_cases hk : k = k₀
    · subst hk
      simp [lookupA] at h
      simp [h]
    · simp [lookupA, hk] at h
      exact List.mem_cons_of_mem _ (ih h)

theorem lookupA_setk_isSome {α : Type} {k k' : String} {v : α}
    {l : List (String × α)} (h : (lookupA k' l).isSome) :
    (lookupA k' (setk k v l)).isSome := by
  by_cases hk : k' = k
  · subst hk
    simp [lookupA_setk_self]
  · rwa [lookupA_setk_ne hk]

/-- Sum of `f` over all contract records of the store (one addend per entry,
in list order). -/
def condSum (f : Contract → ℚ) : List (String × Contract) → ℚ
  | [] => 0
  | (_, c) :: t => f c + condSum f t

theorem condSum_nonneg {f : Contract → ℚ} {l : List (String × Contract)}
    (h : ∀ e ∈ l, 0 ≤ f e.2) : 0 ≤ condSum f l := by
  induction l with
  | nil => simp [condSum]
  | cons e t ih =>
    obtain ⟨k, c⟩ := e
    have h1 := h (k, c) (by simp)
    have h2 : 0 ≤ condSum f t := ih fun e he => h e (List.mem_cons_of_mem _ he)
    simpa [condSum] using add_nonneg h1 h2

theorem condSum_setk_of_lookup {f : Contract → ℚ} {cid : String} {c : Contract}
    {l : List (String × Contract)} (h : lookupA cid l = some c) (c' : Contract) :
    condSum f (setk cid c' l) = condSum f l - f c + f c' := by
  induction l with
  | nil => simp [lookupA] at h
  | cons e t ih =>
    obtain ⟨k₀, c₀⟩ := e
    by_cases hk : cid = k₀
    · subst hk
      simp [lookupA] at h
      subst h
      simp [setk, condSum]
      ring
    · simp [lookupA, hk] at h
      simp [setk, hk, condSum, ih h]
      ring

theorem condSum_setk_of_fresh {f : Contract → ℚ} {cid : String}
    {l : List (String × Contract)} (h : lookupA cid l = none) (c' : Contract) :
    condSum f (setk cid c' l) = condSum f l + f c' := by
  induction l with
  | nil => simp [setk, condSum]
  | cons e t ih =>
    obtain ⟨k₀, c₀⟩ := e
    by_cases hk : cid = k₀
    · subst hk
      simp [lookupA] at h
    · simp [lookupA, hk] at h
      simp [setk, hk, condSum, ih h]
      ring

theorem condSum_eq_zero {f : Contract → ℚ} {l : List (String × Contract)}
    (h : ∀ e ∈ l, f e.2 = 0) : condSum f l = 0 := by
  induction l with
  | nil => simp [condSum]
  | cons e t ih =>
    obtain ⟨k, c⟩ := e
    have h1 := h (k, c) (by simp)
    have h2 := ih fun e he => h e (List.mem_cons_of_mem _ he)
    simp [condSum, h1, h2]

/-- Weight of a contract in the pending-reservation sum of listing `pid`:
its `qty` when it is a PENDING farmer-created contract on `pid`. -/
def pfWeight (pid : String) (c : Contract) : ℚ :=
  if c.product_id = pid ∧ c.status = ContractStatus.PENDING ∧
      c.created_by = CreatedBy.farmer then c.qty else 0

/-- Weight of a contract in the committed sum of listing `pid`: its `qty`
when it is an ACTIVE contract on `pid`. -/
def acWeight (pid : String) (c : Contract) : ℚ :=
  if c.product_id = pid ∧ c.status = ContractStatus.ACTIVE then c.qty else 0

/-- Total quantity of PENDING farmer-created contracts against listing `pid`. -/
def pendingFarmerSum (pid : String) (l : List (String × Contract)) : ℚ :=
  condSum (pfWeight pid) l

/-- Total quantity of ACTIVE contracts against listing `pid`. -/
def activeSum (pid : String) (l : List (String × Contract)) : ℚ :=
  condSum (acWeight pid) l

/-- Inductive invariant of the engine: every stored contract has positive
quantity and references an existing listing, and every listing dominates the
pending-reservation and active-commitment sums of its contracts while
satisfying `available_qty = total_qty - committed_qty`. -/
def EngineInv (db : DB) : Prop :=
  (∀ e ∈ db.contracts, 0 < e.2.qty) ∧
  (∀ e ∈ db.contracts, (lookupA e.2.product_id db.products).isSome) ∧
  ∀ pid p, lookupA pid db.products = some p →
    pendingFarmerSum pid db.contracts ≤ p.reserved_qty ∧
    activeSum pid db.contracts ≤ p.committed_qty ∧
    p.available_qty = p.total_qty - p.committed_qty

theorem inv_trader_accept {db db' : DB} {u : User} {cid now : String}
    (hInv : EngineInv db)
    (hok : trader_accept_contract u cid now db = .ok db') : EngineInv db' := by
  obtain ⟨hpos, href, hprod⟩ := hInv
  simp only [trader_accept_contract] at hok
  split at hok
  · exact Except.noConfusion hok
  split at hok
  · exact Except.noConfusion hok
  rename_i c hc
  split at hok
  · exact Except.noConfusion hok
  split at hok
  · exact Except.noConfusion hok
  rename_i hcb hst
  split at hok
  · exact Except.noConfusion hok
  rename_i p hp
  injection hok with hok
  subst hok
  rw [not_not] at hcb hst
  have hcmem : (cid, c) ∈ db.contracts := lookupA_mem hc
  have hcqty : 0 < c.qty := hpos (cid, c) hcmem
  refine ⟨?_, ?_, ?_⟩
  · intro e he
    rcases mem_setk he with he' | he'
    · subst he'
      exact hcqty
    · exact hpos e he'
  · intro e he
    rcases mem_setk he with he' | he'
    · subst he'
      simp [lookupA_setk_self]
    · exact lookupA_setk_isSome (href e he')
  · intro pid q hq
    by_cases hpid : pid = c.product_id
    · subst hpid
      rw [lookupA_setk_self] at hq
      injection hq with hq
      subst hq
      obtain ⟨hPF, hAC, hEQ⟩ := hprod c.product_id p hp
      have ePF := condSum_setk_of_lookup (f := pfWeight c.product_id) hc
        { c with trader_id := some u.id, status := ContractStatus.ACTIVE,
                 accepted_at := some now, accepted_by := some u.id }
      have eAC := condSum_setk_of_lookup (f := acWeight c.product_id) hc
        { c with trader_id := some u.id, status := ContractStatus.ACTIVE,
                 accepted_at := some now, accepted_by := some u.id }
      have wPFc : pfWeight c.product_id c = c.qty := by
        simp [pfWeight, hst, hcb]
      have wPFc' : pfWeight c.product_id
          { c with trader_id := some u.id, status := ContractStatus.ACTIVE,
                   accepted_at := some now, accepted_by := some u.id } = 0 := by
        simp [pfWeight]
      have wACc : acWeight c.product_id c = 0 := by
        simp [acWeight, hst]
      have wACc' : acWeight c.product_id
          { c with trader_id := some u.id, status := ContractStatus.ACTIVE,
                   accepted_at := some now, accepted_by := some u.id } = c.qty := by
        simp [acWeight]
      refine ⟨?_, ?_, ?_⟩
      · simp only [pendingFarmerSum] at hPF ⊢
        rw [ePF, wPFc, wPFc']
        linarith
      · simp only [activeSum] at hAC ⊢
        rw [eAC, wACc, wACc']
        linarith
      · try dsimp only
        linarith
    · rw [lookupA_setk_ne hpid] at hq
      obtain ⟨hPF, hAC, hEQ⟩ := hprod pid q hq
      have ePF := condSum_setk_of_lookup (f := pfWeight pid) hc
        { c with trader_id := some u.id, status := ContractStatus.ACTIVE,
                 accepted_at := some now, accepted_by := some u.id }
      have eAC := condSum_setk_of_lookup (f := acWeight pid) hc
        { c with trader_id := some u.id, status := ContractStatus.ACTIVE,
                 accepted_at := some now, accepted_by := some u.id }
      have hne : c.product_id ≠ pid := fun h => hpid h.symm
      have wPFc : pfWeight pid c = 0 := by
        simp [pfWeight, hne]
      have wPFc' : pfWeight pid
          { c with trader_id := some u.id, status := ContractStatus.ACTIVE,
                   accepted_at := some now, accepted_by := some u.id } = 0 := by
        simp [pfWeight, hne]
      have wACc : acWeight pid c = 0 := by
        simp [acWeight, hne]
      have wACc' : acWeight pid
          { c with trader_id := some u.id, status := ContractStatus.ACTIVE,
                   accepted_at := some now, accepted_by := some u.id } = 0 := by
        simp [acWeight, hne]
      refine ⟨?_, ?_, hEQ⟩
      · simp only [pendingFarmerSum] at hPF ⊢
        rw [ePF, wPFc, wPFc']
        linarith
      · simp only [activeSum] at hAC ⊢
        rw [eAC, wACc, wACc']
        linarith

theorem inv_farmer_accept {db db' : DB} {u : User} {cid now : String}
    (hInv : EngineInv db)
    (hok : farmer_accept_contract u cid now db = .ok db') : EngineInv db' := by
  obtain ⟨hpos, href, hprod⟩ := hInv
  simp only [farmer_accept_contract] at hok
  split at hok
  · exact Except.noConfusion hok
  split at hok
  · exact Except.noConfusion hok
  rename_i c hc
  split at hok
  · exact Except.noConfusion hok
  split at hok
  · exact Except.noConfusion hok
  split at hok
  · exact Except.noConfusion hok
  rename_i hcb hst hfid
  split at hok
  · exact Except.noConfusion hok
  rename_i p hp
  split at hok
  · exact Except.noConfusion hok
  injection hok with hok
  subst hok
  rw [not_not] at hcb hst
  have hcmem : (cid, c) ∈ db.contracts := lookupA_mem hc
  have hcqty : 0 < c.qty := hpos (cid, c) hcmem
  refine ⟨?_, ?_, ?_⟩
  · intro e he
    rcases mem_setk he with he' | he'
    · subst he'
      exact hcqty
    · exact hpos e he'
  · intro e he
    rcases mem_setk he with he' | he'
    · subst he'
      simp [lookupA_setk_self]
    · exact lookupA_setk_isSome (href e he')
  · intro pid q hq
    have ePF := condSum_setk_of_lookup (f := pfWeight pid) hc
      { c with status := ContractStatus.ACTIVE, accepted_at := some now,
               accepted_by := some u.id }
    have eAC := condSum_setk_of_lookup (f := acWeight pid) hc
      { c with status := ContractStatus.ACTIVE, accepted_at := some now,
               accepted_by := some u.id }
    have wPFc : pfWeight pid c = 0 := by
      simp [pfWeight, hcb]
    have wPFc' : pfWeight pid
        { c with status := ContractStatus.ACTIVE, accepted_at := some now,
                 accepted_by := some u.id } = 0 := by
      simp [pfWeight]
    by_cases hpid : pid = c.product_id
    · subst hpid
      rw [lookupA_setk_self] at hq
      injection hq with hq
      subst hq
      obtain ⟨hPF, hAC, hEQ⟩ := hprod c.product_id p hp
      have wACc : acWeight c.product_id c = 0 := by
        simp [acWeight, hst]
      have wACc' : acWeight c.product_id
          { c with status := ContractStatus.ACTIVE, accepted_at := some now,
                   accepted_by := some u.id } = c.qty := by
        simp [acWeight]
      refine ⟨?_, ?_, ?_⟩
      · simp only [pendingFarmerSum] at hPF ⊢
        rw [ePF, wPFc, wPFc']
        try dsimp only
        linarith
      · simp only [activeSum] at hAC ⊢
        rw [eAC, wACc, wACc']
        try dsimp only
        linarith
      · try dsimp only
        linarith
    · rw [lookupA_setk_ne hpid] at hq
      obtain ⟨hPF, hAC, hEQ⟩ := hprod pid q hq
      have hne : c.product_id ≠ pid := fun h => hpid h.symm
      have wACc : acWeight pid c = 0 := by
        simp [acWeight, hne]
      have wACc' : acWeight pid
          { c with status := ContractStatus.ACTIVE, accepted_at := some now,
                   accepted_by := some u.id } = 0 := by
        simp [acWeight, hne]
      refine ⟨?_, ?_, hEQ⟩
      · simp only [pendingFarmerSum] at hPF ⊢
        rw [ePF, wPFc, wPFc']
        linarith
      · simp only [activeSum] at hAC ⊢
        rw [eAC, wACc, wACc']
        linarith

theorem inv_reject {db db' : DB} {u : User} {cid : String}
    {reason : Option String} {now : String} (hInv : EngineInv db)
    (hok : reject_contract u cid reason now db = .ok db') : EngineInv db' := by
  obtain ⟨hpos, href, hprod⟩ := hInv
  simp only [reject_contract] at hok
  split at hok
  · exact Except.noConfusion hok
  rename_i c hc
  split at hok
  · exact Except.noConfusion hok
  split at hok
  · exact Except.noConfusion hok
  split at hok
  · exact Except.noConfusion hok
  rename_i hst h1 h2
  rw [not_not] at hst
  have hcmem : (cid, c) ∈ db.contracts := lookupA_mem hc
  have hcqty : 0 < c.qty := hpos (cid, c) hcmem
  split at hok
  -- farmer-created: reserved_qty is decremented
  case isTrue hcb =>
    split at hok
    · exact Except.noConfusion hok
    rename_i p hp
    injection hok with hok
    subst hok
    refine ⟨?_, ?_, ?_⟩
    · intro e he
      rcases mem_setk he with he' | he'
      · subst he'
        exact hcqty
      · exact hpos e he'
    · intro e he
      rcases mem_setk he with he' | he'
      · subst he'
        simp [lookupA_setk_self]
      · exact lookupA_setk_isSome (href e he')
    · intro pid q hq
      have ePF := condSum_setk_of_lookup (f := pfWeight pid) hc
        { c with status := ContractStatus.REJECTED, rejected_at := some now,
                 rejected_by := some u.id, rejection_reason := reason }
      have eAC := condSum_setk_of_lookup (f := acWeight pid) hc
        { c with status := ContractStatus.REJECTED, rejected_at := some now,
                 rejected_by := some u.id, rejection_reason := reason }
      have wPFc' : pfWeight pid
          { c with status := ContractStatus.REJECTED, rejected_at := some now,
                   rejected_by := some u.id, rejection_reason := reason } = 0 := by
        simp [pfWeight]
      have wACc : acWeight pid c = 0 := by
        simp [acWeight, hst]
      have wACc' : acWeight pid
          { c with status := ContractStatus.REJECTED, rejected_at := some now,
                   rejected_by := some u.id, rejection_reason := reason } = 0 := by
        simp [acWeight]
      by_cases hpid : pid = c.product_id
      · subst hpid
        rw [lookupA_setk_self] at hq
        injection hq with hq
        subst hq
        obtain ⟨hPF, hAC, hEQ⟩ := hprod c.product_id p hp
        have wPFc : pfWeight c.product_id c = c.qty := by
          simp [pfWeight, hst, hcb]
        refine ⟨?_, ?_, ?_⟩
        · simp only [pendingFarmerSum] at hPF ⊢
          rw [ePF, wPFc, wPFc']
          try dsimp only
          linarith
        · simp only [activeSum] at hAC ⊢
          rw [eAC, wACc, wACc']
          try dsimp only
          linarith
        · try dsimp only
          linarith
      · rw [lookupA_setk_ne hpid] at hq
        obtain ⟨hPF, hAC, hEQ⟩ := hprod pid q hq
        have hne : c.product_id ≠ pid := fun h => hpid h.symm
        have wPFc : pfWeight pid c = 0 := by
          simp [pfWeight, hne]
        refine ⟨?_, ?_, hEQ⟩
        · simp only [pendingFarmerSum] at hPF ⊢
          rw [ePF, wPFc, wPFc']
          linarith
        · simp only [activeSum] at hAC ⊢
          rw [eAC, wACc, wACc']
          linarith
  -- trader-created: no listing counter changes
  case isFalse hcb =>
    injection hok with hok
    subst hok
    have hcbt : c.created_by = CreatedBy.trader := by
      cases hcr : c.created_by
      · exact absurd hcr hcb
      · rfl
    refine ⟨?_, ?_, ?_⟩
    · intro e he
      rcases mem_setk he with he' | he'
      · subst he'
        exact hcqty
      · exact hpos e he'
    · intro e he
      rcases mem_setk he with he' | he'
      · subst he'
        exact href (cid, c) hcmem
      · exact href e he'
    · intro pid q hq
      obtain ⟨hPF, hAC, hEQ⟩ := hprod pid q hq
      have ePF := condSum_setk_of_lookup (f := pfWeight pid) hc
        { c with status := ContractStatus.REJECTED, rejected_at := some now,
                 rejected_by := some u.id, rejection_reason := reason }
      have eAC := condSum_setk_of_lookup (f := acWeight pid) hc
        { c with status := ContractStatus.REJECTED, rejected_at := some now,
                 rejected_by := some u.id, rejection_reason := reason }
      have wPFc : pfWeight pid c = 0 := by
        simp [pfWeight, hcbt]
      have wPFc' : pfWeight pid
          { c with status := ContractStatus.REJECTED, rejected_at := some now,
                   rejected_by := some u.id, rejection_reason := reason } = 0 := by
        simp [pfWeight]
      have wACc : acWeight pid c = 0 := by
        simp [acWeight, hst]
      have wACc' : acWeight pid
          { c with status := ContractStatus.REJECTED, rejected_at := some now,
                   rejected_by := some u.id, rejection_reason := reason } = 0 := by
        simp [acWeight]
      refine ⟨?_, ?_, hEQ⟩
      · simp only [pendingFarmerSum] at hPF ⊢
        rw [ePF, wPFc, wPFc']
        linarith
      · simp only [activeSum] at hAC ⊢
        rw [eAC, wACc, wACc']
        linarith

theorem inv_cancel {db db' : DB} {u : User} {cid now : String}
    (hInv : EngineInv db)
    (hok : cancel_contract u cid now db = .ok db') : EngineInv db' := by
  obtain ⟨hpos, href, hprod⟩ := hInv
  simp only [cancel_contract] at hok
  split at hok
  · exact Except.noConfusion hok
  rename_i c hc
  split at hok
  · exact Except.noConfusion hok
  split at hok
  · exact Except.noConfusion hok
  split at hok
  · exact Except.noConfusion hok
  rename_i hst h1 h2
  rw [not_not] at hst
  have hcmem : (cid, c) ∈ db.contracts := lookupA_mem hc
  have hcqty : 0 < c.qty := hpos (cid, c) hcmem
  split at hok
  case isTrue hcb =>
    split at hok
    · exact Except.noConfusion hok
    rename_i p hp
    injection hok with hok
    subst hok
    refine ⟨?_, ?_, ?_⟩
    · intro e he
      rcases mem_setk he with he' | he'
      · subst he'
        exact hcqty
      · exact hpos e he'
    · intro e he
      rcases mem_setk he with he' | he'
      · subst he'
        simp [lookupA_setk_self]
      · exact lookupA_setk_isSome (href e he')
    · intro pid q hq
      have ePF := condSum_setk_of_lookup (f := pfWeight pid) hc
        { c with status := ContractStatus.CANCELLED, cancelled_at := some now }
      have eAC := condSum_setk_of_lookup (f := acWeight pid) hc
        { c with status := ContractStatus.CANCELLED, cancelled_at := some now }
      have wPFc' : pfWeight pid
          { c with status := ContractStatus.CANCELLED,
                   cancelled_at := some now } = 0 := by
        simp [pfWeight]
      have wACc : acWeight pid c = 0 := by
        simp [acWeight, hst]
      have wACc' : acWeight pid
          { c with status := ContractStatus.CANCELLED,
                   cancelled_at := some now } = 0 := by
        simp [acWeight]
      by_cases hpid : pid = c.product_id
      · subst hpid
        rw [lookupA_setk_self] at hq
        injection hq with hq
        subst hq
        obtain ⟨hPF, hAC, hEQ⟩ := hprod c.product_id p hp
        have wPFc : pfWeight c.product_id c = c.qty := by
          simp [pfWeight, hst, hcb]
        refine ⟨?_, ?_, ?_⟩
        · simp only [pendingFarmerSum] at hPF ⊢
          rw [ePF, wPFc, wPFc']
          try dsimp only
          linarith
        · simp only [activeSum] at hAC ⊢
          rw [eAC, wACc, wACc']
          try dsimp only
          linarith
        · try dsimp only
          linarith
      · rw [lookupA_setk_ne hpid] at hq
        obtain ⟨hPF, hAC, hEQ⟩ := hprod pid q hq
        have hne : c.product_id ≠ pid := fun h => hpid h.symm
        have wPFc : pfWeight pid c = 0 := by
          simp [pfWeight, hne]
        refine ⟨?_, ?_, hEQ⟩
        · simp only [pendingFarmerSum] at hPF ⊢
          rw [ePF, wPFc, wPFc']
          linarith
        · simp only [activeSum] at hAC ⊢
          rw [eAC, wACc, wACc']
          linarith
  case isFalse hcb =>
    injection hok with hok
    subst hok
    have hcbt : c.created_by = CreatedBy.trader := by
      cases hcr : c.created_by
      · exact absurd hcr hcb
      · rfl
    refine ⟨?_, ?_, ?_⟩
    · intro e he
      rcases mem_setk he with he' | he'
      · subst he'
        exact hcqty
      · exact hpos e he'
    · intro e he
      rcases mem_setk he with he' | he'
      · subst he'
        exact href (cid, c) hcmem
      · exact href e he'
    · intro pid q hq
      obtain ⟨hPF, hAC, hEQ⟩ := hprod pid q hq
      have ePF := condSum_setk_of_lookup (f := pfWeight pid) hc
        { c with status := ContractStatus.CANCELLED, cancelled_at := some now }
      have eAC := condSum_setk_of_lookup (f := acWeight pid) hc
        { c with status := ContractStatus.CANCELLED, cancelled_at := some now }
      have wPFc : pfWeight pid c = 0 := by
        simp [pfWeight, hcbt]
      have wPFc' : pfWeight pid
          { c with status := ContractStatus.CANCELLED,
                   cancelled_at := some now } = 0 := by
        simp [pfWeight]
      have wACc : acWeight pid c = 0 := by
        simp [acWeight, hst]
      have wACc' : acWeight pid
          { c with status := ContractStatus.CANCELLED,
                   cancelled_at := some now } = 0 := by
        simp [acWeight]
      refine ⟨?_, ?_, hEQ⟩
      · simp only [pendingFarmerSum] at hPF ⊢
        rw [ePF, wPFc, wPFc']
        linarith
      · simp only [activeSum] at hAC ⊢
        rw [eAC, wACc, wACc']
        linarith

theorem inv_complete {db db' : DB} {u : User} {cid : String} {cb : CreatedBy}
    {now : String} (hInv : EngineInv db)
    (hok : complete_contract u cid cb now db = .ok db') : EngineInv db' := by
  obtain ⟨hpos, href, hprod⟩ := hInv
  simp only [complete_contract] at hok
  split at hok
  · exact Except.noConfusion hok
  rename_i c hc
  split at hok
  · exact Except.noConfusion hok
  split at hok
  · exact Except.noConfusion hok
  rename_i hst hparty
  split at hok
  · exact Except.noConfusion hok
  rename_i p hp
  injection hok with hok
  subst hok
  rw [not_not] at hst
  have hcmem : (cid, c) ∈ db.contracts := lookupA_mem hc
  have hcqty : 0 < c.qty := hpos (cid, c) hcmem
  refine ⟨?_, ?_, ?_⟩
  · intro e he
    rcases mem_setk he with he' | he'
    · subst he'
      exact hcqty
    · exact hpos e he'
  · intro e he
    rcases mem_setk he with he' | he'
    · subst he'
      simp [lookupA_setk_self]
    · exact lookupA_setk_isSome (href e he')
  · intro pid q hq
    have ePF := condSum_setk_of_lookup (f := pfWeight pid) hc
      { c with status := ContractStatus.COMPLETED, completed_at := some now,
               completed_by := some cb.val }
    have eAC := condSum_setk_of_lookup (f := acWeight pid) hc
      { c with status := ContractStatus.COMPLETED, completed_at := some now,
               completed_by := some cb.val }
    have wPFc : pfWeight pid c = 0 := by
      simp [pfWeight, hst]
    have wPFc' : pfWeight pid
        { c with status := ContractStatus.COMPLETED, completed_at := some now,
                 completed_by := some cb.val } = 0 := by
      simp [pfWeight]
    have wACc' : acWeight pid
        { c with status := ContractStatus.COMPLETED, completed_at := some now,
                 completed_by := some cb.val } = 0 := by
      simp [acWeight]
    by_cases hpid : pid = c.product_id
    · subst hpid
      rw [lookupA_setk_self] at hq
      injection hq with hq
      subst hq
      obtain ⟨hPF, hAC, hEQ⟩ := hprod c.product_id p hp
      have wACc : acWeight c.product_id c = c.qty := by
        simp [acWeight, hst]
      refine ⟨?_, ?_, ?_⟩
      · simp only [pendingFarmerSum] at hPF ⊢
        rw [ePF, wPFc, wPFc']
        try dsimp only
        linarith
      · simp only [activeSum] at hAC ⊢
        rw [eAC, wACc, wACc']
        try dsimp only
        linarith
      · try dsimp only
        linarith
    · rw [lookupA_setk_ne hpid] at hq
      obtain ⟨hPF, hAC, hEQ⟩ := hprod pid q hq
      have hne : c.product_id ≠ pid := fun h => hpid h.symm
      have wACc : acWeight pid c = 0 := by
        simp [acWeight, hne]
      have wPFc2 : pfWeight pid c = 0 := by
        simp [pfWeight, hne]
      refine ⟨?_, ?_, hEQ⟩
      · simp only [pendingFarmerSum] at hPF ⊢
        rw [ePF, wPFc2, wPFc']
        linarith
      · simp only [activeSum] at hAC ⊢
        rw [eAC, wACc, wACc']
        linarith

theorem inv_list_product {db db' : DB} {u : User} {ptype : String} {qty : ℚ}
    {unit : UnitType} {pid : String}
    (hInv : EngineInv db) (_hq : 0 < qty)
    (hfresh : lookupA pid db.products = none)
    (hok : list_product u ptype qty unit pid db = .ok db') : EngineInv db' := by
  obtain ⟨hpos, href, hprod⟩ := hInv
  simp only [list_product] at hok
  split at hok
  · exact Except.noConfusion hok
  injection hok with hok
  subst hok
  have hnoref : ∀ e ∈ db.contracts, e.2.product_id ≠ pid := by
    intro e he h
    have := href e he
    rw [h, hfresh] at this
    simp at this
  refine ⟨hpos, ?_, ?_⟩
  · intro e he
    exact lookupA_setk_isSome (href e he)
  · intro pid' q hq'
    by_cases hpid : pid' = pid
    · subst hpid
      rw [lookupA_setk_self] at hq'
      injection hq' with hq'
      subst hq'
      have hPF0 : pendingFarmerSum pid' db.contracts = 0 :=
        condSum_eq_zero fun e he => by simp [pfWeight, hnoref e he]
      have hAC0 : activeSum pid' db.contracts = 0 :=
        condSum_eq_zero fun e he => by simp [acWeight, hnoref e he]
      refine ⟨?_, ?_, ?_⟩
      · rw [hPF0]
      · rw [hAC0]
      · try dsimp only
        ring
    · rw [lookupA_setk_ne hpid] at hq'
      exact hprod pid' q hq'

theorem inv_create_by_farmer {db db' : DB} {u : User}
    {req : CreateContractByFarmerRequest} {cid now : String}
    (hInv : EngineInv db) (hq : 0 < req.qty)
    (hfresh : lookupA cid db.contracts = none)
    (hok : create_contract_by_farmer u req cid now db = .ok db') :
    EngineInv db' := by
  obtain ⟨hpos, href, hprod⟩ := hInv
  simp only [create_contract_by_farmer] at hok
  split at hok
  · exact Except.noConfusion hok
  split at hok
  · exact Except.noConfusion hok
  rename_i product hprd
  split at hok
  · exact Except.noConfusion hok
  split at hok
  · exact Except.noConfusion hok
  rename_i howner hqtyok
  injection hok with hok
  subst hok
  refine ⟨?_, ?_, ?_⟩
  · intro e he
    rcases mem_setk he with he' | he'
    · subst he'
      exact hq
    · exact hpos e he'
  · intro e he
    rcases mem_setk he with he' | he'
    · subst he'
      simp [lookupA_setk_self]
    · exact lookupA_setk_isSome (href e he')
  · intro pid q hq'
    have ePF := condSum_setk_of_fresh (f := pfWeight pid) hfresh
      { farmer_id := u.id, trader_id := none, product_id := req.product_id,
        product_type := product.ptype, price_per_unit := req.price_per_unit,
        qty := req.qty, unit := req.unit.val,
        total_value := req.price_per_unit * req.qty,
        status := ContractStatus.PENDING, created_by := CreatedBy.farmer,
        created_at := now, accepted_at := none, accepted_by := none,
        completed_at := none, completed_by := none, rejected_at := none,
        rejected_by := none, cancelled_at := none, cancelled_by := none,
        rejection_reason := none,
        expected_delivery_date := req.expected_delivery_date,
        notes := req.notes }
    have eAC := condSum_setk_of_fresh (f := acWeight pid) hfresh
      { farmer_id := u.id, trader_id := none, product_id := req.product_id,
        product_type := product.ptype, price_per_unit := req.price_per_unit,
        qty := req.qty, unit := req.unit.val,
        total_value := req.price_per_unit * req.qty,
        status := ContractStatus.PENDING, created_by := CreatedBy.farmer,
        created_at := now, accepted_at := none, accepted_by := none,
        completed_at := none, completed_by := none, rejected_at := none,
        rejected_by := none, cancelled_at := none, cancelled_by := none,
        rejection_reason := none,
        expected_delivery_date := req.expected_delivery_date,
        notes := req.notes }
    by_cases hpid : pid = req.product_id
    · subst hpid
      rw [lookupA_setk_self] at hq'
      injection hq' with hq'
      subst hq'
      obtain ⟨hPF, hAC, hEQ⟩ := hprod req.product_id product hprd
      have wPF : pfWeight req.product_id
          { farmer_id := u.id, trader_id := none, product_id := req.product_id,
            product_type := product.ptype,
            price_per_unit := req.price_per_unit, qty := req.qty,
            unit := req.unit.val,
            total_value := req.price_per_unit * req.qty,
            status := ContractStatus.PENDING,
            created_by := CreatedBy.farmer, created_at := now,
            accepted_at := none, accepted_by := none, completed_at := none,
            completed_by := none, rejected_at := none, rejected_by := none,
            cancelled_at := none, cancelled_by := none,
            rejection_reason := none,
            expected_delivery_date := req.expected_delivery_date,
            notes := req.notes } = req.qty := by
        simp [pfWeight]
      have wAC : acWeight req.product_id
          { farmer_id := u.id, trader_id := none, product_id := req.product_id,
            product_type := product.ptype,
            price_per_unit := req.price_per_unit, qty := req.qty,
            unit := req.unit.val,
            total_value := req.price_per_unit * req.qty,
            status := ContractStatus.PENDING,
            created_by := CreatedBy.farmer, created_at := now,
            accepted_at := none, accepted_by := none, completed_at := none,
            completed_by := none, rejected_at := none, rejected_by := none,
            cancelled_at := none, cancelled_by := none,
            rejection_reason := none,
            expected_delivery_date := req.expected_delivery_date,
            notes := req.notes } = 0 := by
        simp [acWeight]
      refine ⟨?_, ?_, ?_⟩
      · simp only [pendingFarmerSum] at hPF ⊢
        rw [ePF, wPF]
        try dsimp only
        linarith
      · simp only [activeSum] at hAC ⊢
        rw [eAC, wAC]
        try dsimp only
        linarith
      · try dsimp only
        linarith
    · rw [lookupA_setk_ne hpid] at hq'
      obtain ⟨hPF, hAC, hEQ⟩ := hprod pid q hq'
      have hne : req.product_id ≠ pid := fun h => hpid h.symm
      refine ⟨?_, ?_, hEQ⟩
      · simp only [pendingFarmerSum] at hPF ⊢
        rw [ePF]
        simp only [pfWeight]
        rw [if_neg (by simp [hne])]
        linarith
      · simp only [activeSum] at hAC ⊢
        rw [eAC]
        simp only [acWeight]
        rw [if_neg (by simp [hne])]
        linarith

theorem inv_create_by_trader {db db' : DB} {u : User}
    {req : CreateContractByTraderRequest} {cid now : String}
    (hInv : EngineInv db) (hq : 0 < req.qty)
    (hfresh : lookupA cid db.contracts = none)
    (hok : create_contract_by_trader u req cid now db = .ok db') :
    EngineInv db' := by
  obtain ⟨hpos, href, hprod⟩ := hInv
  simp only [create_contract_by_trader] at hok
  split at hok
  · exact Except.noConfusion hok
  split at hok
  · exact Except.noConfusion hok
  rename_i product hprd
  split at hok
  · exact Except.noConfusion hok
  split at hok
  · exact Except.noConfusion hok
  rename_i hfarm hqtyok
  injection hok with hok
  subst hok
  refine ⟨?_, ?_, ?_⟩
  · intro e he
    rcases mem_setk he with he' | he'
    · subst he'
      exact hq
    · exact hpos e he'
  · intro e he
    rcases mem_setk he with he' | he'
    · subst he'
      simp [hprd]
    · exact href e he'
  · intro pid q hq'
    obtain ⟨hPF, hAC, hEQ⟩ := hprod pid q hq'
    have ePF := condSum_setk_of_fresh (f := pfWeight pid) hfresh
      { farmer_id := req.farmer_id, trader_id := some u.id,
        product_id := req.product_id, product_type := product.ptype,
        price_per_unit := req.price_per_unit, qty := req.qty,
        unit := req.unit.val, total_value := req.price_per_unit * req.qty,
        status := ContractStatus.PENDING, created_by := CreatedBy.trader,
        created_at := now, accepted_at := none, accepted_by := none,
        completed_at := none, completed_by := none, rejected_at := none,
        rejected_by := none, cancelled_at := none, cancelled_by := none,
        rejection_reason := none,
        expected_delivery_date := req.expected_delivery_date,
        notes := req.notes }
    have eAC := condSum_setk_of_fresh (f := acWeight pid) hfresh
      { farmer_id := req.farmer_id, trader_id := some u.id,
        product_id := req.product_id, product_type := product.ptype,
        price_per_unit := req.price_per_unit, qty := req.qty,
        unit := req.unit.val, total_value := req.price_per_unit * req.qty,
        status := ContractStatus.PENDING, created_by := CreatedBy.trader,
        created_at := now, accepted_at := none, accepted_by := none,
        completed_at := none, completed_by := none, rejected_at := none,
        rejected_by := none, cancelled_at := none, cancelled_by := none,
        rejection_reason := none,
        expected_delivery_date := req.expected_delivery_date,
        notes := req.notes }
    refine ⟨?_, ?_, hEQ⟩
    · simp only [pendingFarmerSum] at hPF ⊢
      rw [ePF]
      simp only [pfWeight]
      rw [if_neg (by simp)]
      linarith
    · simp only [activeSum] at hAC ⊢
      rw [eAC]
      simp only [acWeight]
      rw [if_neg (by simp)]
      linarith

/-- Every successful endpoint call preserves the engine invariant. -/
theorem step_preserves_inv {db db' : DB} (h : Step db db')
    (hInv : EngineInv db) : EngineInv db' := by
  cases h with
  | listProduct u ptype qty unit pid hq hfresh hok =>
    exact inv_list_product hInv hq hfresh hok
  | createByFarmer u req cid now hq hp hfresh hok =>
    exact inv_create_by_farmer hInv hq hfresh hok
  | createByTrader u req cid now hq hp hfresh hok =>
    exact inv_create_by_trader hInv hq hfresh hok
  | traderAccept u cid now hok => exact inv_trader_accept hInv hok
  | farmerAccept u cid now hok => exact inv_farmer_accept hInv hok
  | reject u cid reason now hok => exact inv_reject hInv hok
  | cancel u cid now hok => exact inv_cancel hInv hok
  | complete u cid cb now hok => exact inv_complete hInv hok

/-- The engine invariant holds in every reachable store. -/
theorem reachable_inv {db : DB} (h : Reachable db) : EngineInv db := by
  induction h with
  | refl =>
    refine ⟨?_, ?_, ?_⟩
    · intro e he
      simp [emptyDB] at he
    · intro e he
      simp [emptyDB] at he
    · intro pid p hp
      simp [emptyDB, lookupA] at hp
  | tail _ hstep ih => exact step_preserves_inv hstep ih

/-- The looked-up listing after a chain of endpoint calls ends successfully
(`none` when the chain failed or the listing is absent). -/
def productAfter (e : Except ApiError DB) (pid : String) : Option Product :=
  match e with
  | .ok db => lookupA pid db.products
  | .error _ => none

/-- Concrete farmer (`users_db` entry of type `"farmer"`). -/
def farmerU : User := { id := "F", utype := .farmer }

/-- Concrete trader (`users_db` entry of type `"trader"`). -/
def traderU : User := { id := "T", utype := .trader }

/-- A freshly listed product: `total_qty = available_qty = 1000`,
`reserved_qty = committed_qty = 0` (exactly what `list_product` creates). -/
def listingL : Product :=
  { farmer_id := "F", ptype := "Soybean", total_qty := 1000,
    available_qty := 1000, reserved_qty := 0, committed_qty := 0,
    unit := "kg", is_active := true }

/-- Store holding only the fresh listing `"L"`. -/
def dbL : DB := { products := [("L", listingL)], contracts := [] }

theorem dbL_reachable : Reachable dbL := by
  refine Relation.ReflTransGen.single
    (Step.listProduct emptyDB dbL farmerU "Soybean" 1000 .kg "L" (by norm_num)
      rfl ?_)
  rfl

theorem pfWeight_nonneg {db : DB} (hpos : ∀ e ∈ db.contracts, 0 < e.2.qty)
    (pid : String) : ∀ e ∈ db.contracts, 0 ≤ pfWeight pid e.2 := by
  intro e he
  unfold pfWeight
  split
  · exact le_of_lt (hpos e he)
  · exact le_refl 0

theorem acWeight_nonneg {db : DB} (hpos : ∀ e ∈ db.contracts, 0 < e.2.qty)
    (pid : String) : ∀ e ∈ db.contracts, 0 ≤ acWeight pid e.2 := by
  intro e he
  unfold acWeight
  split
  · exact le_of_lt (hpos e he)
  · exact le_refl 0

/-- C1 (amended): in every reachable store, every listing has
`reserved_qty ≥ 0` and `committed_qty ≥ 0`.  (The original claim also
demanded `available_qty ≥ 0` and `total_qty ≥ committed_qty`; those two can
fail, see the counterexample.) -/
theorem reachable_listing_counters {db : DB} (h : Reachable db)
    (pid : String) (p : Product) (hp : lookupA pid db.products = some p) :
    0 ≤ p.reserved_qty ∧ 0 ≤ p.committed_qty := by
  obtain ⟨hpos, href, hprod⟩ := reachable_inv h
  obtain ⟨hPF, hAC, _⟩ := hprod pid p hp
  have h1 : 0 ≤ pendingFarmerSum pid db.contracts :=
    condSum_nonneg (pfWeight_nonneg hpos pid)
  have h2 : 0 ≤ activeSum pid db.contracts :=
    condSum_nonneg (acWeight_nonneg hpos pid)
  exact ⟨le_trans h1 hPF, le_trans h2 hAC⟩

theorem reachable_listing_counters_witness :
    0 ≤ listingL.reserved_qty ∧ 0 ≤ listingL.committed_qty :=
  reachable_listing_counters dbL_reachable "L" listingL rfl

/-- Producer-initiated proposal for 800 kg against listing `"L"`. -/
def cxReqF : CreateContractByFarmerRequest :=
  { product_id := "L", price_per_unit := 50, qty := 800, unit := .kg,
    expected_delivery_date := none, notes := none }

/-- Buyer-initiated proposal for 1000 kg against listing `"L"`. -/
def cxReqT : CreateContractByTraderRequest :=
  { farmer_id := "F", product_id := "L", price_per_unit := 55, qty := 1000,
    unit := .kg, expected_delivery_date := none, notes := none }

/-- The farmer-created contract stored by the first counterexample step. -/
def cCF : Contract :=
  { farmer_id := "F", trader_id := none, product_id := "L",
    product_type := "Soybean", price_per_unit := 50, qty := 800,
    unit := "kg", total_value := 40000, status := .PENDING,
    created_by := .farmer, created_at := "t1", accepted_at := none,
    accepted_by := none, completed_at := none, completed_by := none,
    rejected_at := none, rejected_by := none, cancelled_at := none,
    cancelled_by := none, rejection_reason := none,
    expected_delivery_date := none, notes := none }

/-- The trader-created contract stored by the second counterexample step. -/
def cCT : Contract :=
  { farmer_id := "F", trader_id := some "T", product_id := "L",
    product_type := "Soybean", price_per_unit := 55, qty := 1000,
    unit := "kg", total_value := 55000, status := .PENDING,
    created_by := .trader, created_at := "t2", accepted_at := none,
    accepted_by := none, completed_at := none, completed_by := none,
    rejected_at := none, rejected_by := none, cancelled_at := none,
    cancelled_by := none, rejection_reason := none,
    expected_delivery_date := none, notes := none }

/-- Listing `"L"` after the 800 kg producer proposal reserved stock. -/
def cxL1 : Product := { listingL with reserved_qty := 800 }

/-- Listing `"L"` after the farmer also accepted the 1000 kg buyer
proposal: all remaining stock committed while 800 kg stay reserved. -/
def cxL2 : Product :=
  { listingL with
    reserved_qty := 800
    available_qty := 0
    committed_qty := 1000 }

/-- Listing `"L"` after the trader then accepted the reserved 800 kg
proposal (no quantity re-check): `available_qty = -800 < 0` and
`committed_qty = 1800 > total_qty = 1000`. -/
def cxL3 : Product :=
  { listingL with
    reserved_qty := 0
    available_qty := -800
    committed_qty := 1800 }

def cxDb1 : DB := { products := [("L", cxL1)], contracts := [("CF", cCF)] }

def cxDb2 : DB :=
  { products := [("L", cxL1)], contracts := [("CF", cCF), ("CT", cCT)] }

def cxCT3 : Contract :=
  { cCT with
    status := .ACTIVE
    accepted_at := some "t3"
    accepted_by := some "F" }

def cxCF4 : Contract :=
  { cCF with
    trader_id := some "T"
    status := .ACTIVE
    accepted_at := some "t4"
    accepted_by := some "T" }

def cxDb3 : DB :=
  { products := [("L", cxL2)], contracts := [("CF", cCF), ("CT", cxCT3)] }

def cxDb4 : DB :=
  { products := [("L", cxL3)], contracts := [("CF", cxCF4), ("CT", cxCT3)] }

theorem cx_step1 : create_contract_by_farmer farmerU cxReqF "CF" "t1" dbL =
    .ok cxDb1 := by
  simp [create_contract_by_farmer, farmerU, cxReqF, dbL, listingL,
    lookupA, setk, cxDb1, cCF, cxL1, UnitType.val]
  try norm_num

theorem cx_step2 : create_contract_by_trader traderU cxReqT "CT" "t2" cxDb1 =
    .ok cxDb2 := by
  simp [create_contract_by_trader, traderU, cxReqT, cxDb1, cxDb2,
    listingL, lookupA, setk, cCF, cCT, cxL1, UnitType.val]
  try norm_num

theorem cx_step3 : farmer_accept_contract farmerU "CT" "t3" cxDb2 =
    .ok cxDb3 := by
  simp [farmer_accept_contract, farmerU, cxDb2, cxDb3, lookupA, setk,
    cCF, cCT, cxCT3, cxL1, cxL2, listingL]
  try norm_num

theorem cx_step4 : trader_accept_contract traderU "CF" "t4" cxDb3 =
    .ok cxDb4 := by
  simp [trader_accept_contract, traderU, cxDb3, cxDb4, lookupA, setk,
    cCF, cCT, cxCT3, cxCF4, cxL2, cxL3, listingL]
  try norm_num

theorem cxDb4_reachable : Reachable cxDb4 := by
  have s0 : Step emptyDB dbL :=
    Step.listProduct emptyDB dbL farmerU "Soybean" 1000 .kg "L"
      (by norm_num) rfl rfl
  have s1 : Step dbL cxDb1 :=
    Step.createByFarmer dbL cxDb1 farmerU cxReqF "CF" "t1"
      (by norm_num [cxReqF]) (by norm_num [cxReqF]) rfl cx_step1
  have s2 : Step cxDb1 cxDb2 :=
    Step.createByTrader cxDb1 cxDb2 traderU cxReqT "CT" "t2"
      (by norm_num [cxReqT]) (by norm_num [cxReqT])
      (by simp [cxDb1, lookupA]) cx_step2
  have s3 : Step cxDb2 cxDb3 :=
    Step.farmerAccept cxDb2 cxDb3 farmerU "CT" "t3" cx_step3
  have s4 : Step cxDb3 cxDb4 :=
    Step.traderAccept cxDb3 cxDb4 traderU "CF" "t4" cx_step4
  exact ((((Relation.ReflTransGen.refl.tail s0).tail s1).tail s2).tail
    s3).tail s4

/-- C1 is false as stated: the store `cxDb4` is reachable (fresh listing of
1000 kg; producer proposes 800 kg; buyer proposes 1000 kg; farmer accepts
the buyer proposal; a trader accepts the producer proposal, which re-checks
no quantity), yet its listing has `available_qty = -800 < 0` and
`total_qty = 1000 < committed_qty = 1800`. -/
theorem c1_counterexample :
    Reachable cxDb4 ∧ lookupA "L" cxDb4.products = some cxL3 ∧
    cxL3.available_qty < 0 ∧ cxL3.total_qty < cxL3.committed_qty := by
  refine ⟨cxDb4_reachable, rfl, ?_, ?_⟩ <;> norm_num [cxL3, listingL]

/-- Producer-initiated proposal for 300 kg against listing `"L"`. -/
def reqC3 : CreateContractByFarmerRequest :=
  { product_id := "L", price_per_unit := 50, qty := 300, unit := .kg,
    expected_delivery_date := none, notes := none }

/-- Scenario stage 1: producer proposes 300 kg. -/
def c3stage1 : Except ApiError DB :=
  create_contract_by_farmer farmerU reqC3 "C1" "s1" dbL

/-- Scenario stage 2: a trader accepts the proposal. -/
def c3stage2 : Except ApiError DB :=
  c3stage1.bind (trader_accept_contract traderU "C1" "s2")

/-- Scenario stage 3: the farmer completes the contract. -/
def c3stage3 : Except ApiError DB :=
  c3stage2.bind (complete_contract farmerU "C1" CreatedBy.farmer "s3")

def c3L1 : Product := { listingL with reserved_qty := 300 }

def c3L2 : Product :=
  { listingL with
    reserved_qty := 0
    available_qty := 700
    committed_qty := 300 }

def c3L3 : Product :=
  { listingL with
    total_qty := 700
    available_qty := 700 }

/-- The contract record the 300 kg proposal stores. -/
def c3C1 : Contract :=
  { farmer_id := "F", trader_id := none, product_id := "L",
    product_type := "Soybean", price_per_unit := 50, qty := 300,
    unit := "kg", total_value := 15000, status := .PENDING,
    created_by := .farmer, created_at := "s1", accepted_at := none,
    accepted_by := none, completed_at := none, completed_by := none,
    rejected_at := none, rejected_by := none, cancelled_at := none,
    cancelled_by := none, rejection_reason := none,
    expected_delivery_date := none, notes := none }

def c3C2 : Contract :=
  { c3C1 with
    trader_id := some "T"
    status := .ACTIVE
    accepted_at := some "s2"
    accepted_by := some "T" }

def c3C3 : Contract :=
  { c3C2 with
    status := .COMPLETED
    completed_at := some "s3"
    completed_by := some "farmer" }

def c3Db1 : DB := { products := [("L", c3L1)], contracts := [("C1", c3C1)] }

def c3Db2 : DB := { products := [("L", c3L2)], contracts := [("C1", c3C2)] }

def c3Db3 : DB := { products := [("L", c3L3)], contracts := [("C1", c3C3)] }

theorem c3_step1 : c3stage1 = .ok c3Db1 := by
  simp [c3stage1, create_contract_by_farmer, farmerU, reqC3, dbL, listingL,
    lookupA, setk, c3Db1, c3C1, c3L1, UnitType.val]
  try norm_num

theorem c3_step2 : c3stage2 = .ok c3Db2 := by
  rw [c3stage2, c3_step1]
  simp [Except.bind, trader_accept_contract, traderU, c3Db1, c3Db2, c3C1,
    c3C2, c3L1, c3L2, listingL, lookupA, setk]
  try norm_num

theorem c3_complete_step :
    complete_contract farmerU "C1" CreatedBy.farmer "s3" c3Db2 =
      .ok c3Db3 := by
  simp [complete_contract, farmerU, c3Db2, c3Db3, c3C1, c3C2, c3C3, c3L2,
    c3L3, listingL, lookupA, setk, CreatedBy.val]
  try norm_num

theorem c3_step3 : c3stage3 = .ok c3Db3 := by
  rw [c3stage3, c3_step2]
  simp only [Except.bind]
  exact c3_complete_step

/-- C3: from `total_qty = available_qty = 1000`,
`reserved_qty = committed_qty = 0`, a producer proposal of 300 yields
`reserved_qty = 300` with the other counters unchanged; the trader accept
yields `reserved_qty = 0, available_qty = 700, committed_qty = 300`
(`total_qty` still 1000); completion yields `committed_qty = 0,
total_qty = 700, available_qty = 700`. -/
theorem c3_concrete_scenario :
    productAfter c3stage1 "L" = some c3L1 ∧
    productAfter c3stage2 "L" = some c3L2 ∧
    productAfter c3stage3 "L" = some c3L3 := by
  refine ⟨?_, ?_, ?_⟩
  · rw [c3_step1]
    simp [productAfter, c3Db1, lookupA]
  · rw [c3_step2]
    simp [productAfter, c3Db2, lookupA]
  · rw [c3_step3]
    simp [productAfter, c3Db3, lookupA]

/-- C2: accepting a buyer-initiated PENDING contract whose backing listing's
`available_qty` has dropped below the contract's `qty` fails with the
insufficient-available error.  In this embedding an `.error` result returns
the store unchanged, which matches the source: in
`farmer_accept_contract` the quantity check (line 745) raises before any
contract or listing field is written (lines 752-759), so the contract stays
PENDING and both collections are exactly as before the attempt. -/
theorem farmer_accept_insufficient_fails {db : DB} {u : User}
    {cid now : String} {c : Contract} {p : Product}
    (hu : u.utype = UserType.farmer)
    (hc : lookupA cid db.contracts = some c)
    (hcb : c.created_by = CreatedBy.trader)
    (hst : c.status = ContractStatus.PENDING)
    (hf : c.farmer_id = u.id)
    (hp : lookupA c.product_id db.products = some p)
    (hlow : p.available_qty < c.qty) :
    farmer_accept_contract u cid now db =
      .error (ApiError.insufficientAvailable p.available_qty p.unit) := by
  simp [farmer_accept_contract, hu, hc, hcb, hst, hf, hp, hlow]

/-- The backing listing for the C2 witness: only 100 kg still available. -/
def c2L : Product :=
  { farmer_id := "F", ptype := "Mustard", total_qty := 500,
    available_qty := 100, reserved_qty := 0, committed_qty := 400,
    unit := "kg", is_active := true }

/-- A trader-created PENDING contract over 200 kg, more than is available. -/
def c2C : Contract :=
  { farmer_id := "F", trader_id := some "T", product_id := "P",
    product_type := "Mustard", price_per_unit := 10, qty := 200,
    unit := "kg", total_value := 2000, status := .PENDING,
    created_by := .trader, created_at := "t0", accepted_at := none,
    accepted_by := none, completed_at := none, completed_by := none,
    rejected_at := none, rejected_by := none, cancelled_at := none,
    cancelled_by := none, rejection_reason := none,
    expected_delivery_date := none, notes := none }

def c2db : DB := { products := [("P", c2L)], contracts := [("C", c2C)] }

theorem farmer_accept_insufficient_fails_witness :
    farmer_accept_contract farmerU "C" "t9" c2db =
      .error (ApiError.insufficientAvailable c2L.available_qty c2L.unit) :=
  farmer_accept_insufficient_fails rfl rfl rfl rfl rfl rfl
    (by norm_num [c2L, c2C])

/-- The contract record `create_contract_by_farmer` stores on success. -/
def farmerContractRec (u : User) (req : CreateContractByFarmerRequest)
    (ptype now : String) : Contract :=
  { farmer_id := u.id, trader_id := none, product_id := req.product_id,
    product_type := ptype, price_per_unit := req.price_per_unit,
    qty := req.qty, unit := req.unit.val,
    total_value := req.price_per_unit * req.qty, status := .PENDING,
    created_by := .farmer, created_at := now, accepted_at := none,
    accepted_by := none, completed_at := none, completed_by := none,
    rejected_at := none, rejected_by := none, cancelled_at := none,
    cancelled_by := none, rejection_reason := none,
    expected_delivery_date := req.expected_delivery_date,
    notes := req.notes }

theorem create_by_farmer_ok {db db' : DB} {u : User}
    {req : CreateContractByFarmerRequest} {cid now : String}
    (h : create_contract_by_farmer u req cid now db = .ok db') :
    ∃ p, u.utype = UserType.farmer ∧
      lookupA req.product_id db.products = some p ∧
      p.farmer_id = u.id ∧
      req.qty ≤ p.available_qty - p.reserved_qty ∧
      db' = { products := setk req.product_id
                { p with reserved_qty := p.reserved_qty + req.qty }
                db.products,
              contracts := setk cid (farmerContractRec u req p.ptype now)
                db.contracts } := by
  simp only [create_contract_by_farmer] at h
  split at h
  · exact Except.noConfusion h
  rename_i hu
  split at h
  · exact Except.noConfusion h
  rename_i p hp
  split at h
  · exact Except.noConfusion h
  rename_i hown
  split at h
  · exact Except.noConfusion h
  rename_i hqty
  injection h with h
  exact ⟨p, not_not.mp hu, hp, not_not.mp hown, not_lt.mp hqty, h.symm⟩

theorem create_then_cancel_reserved {db db1 db2 : DB} {u v : User}
    {req : CreateContractByFarmerRequest} {cid now1 now2 : String}
    {p : Product}
    (hp : lookupA req.product_id db.products = some p)
    (h1 : create_contract_by_farmer u req cid now1 db = .ok db1)
    (h2 : cancel_contract v cid now2 db1 = .ok db2) :
    ∃ p2, lookupA req.product_id db2.products = some p2 ∧
      p2.reserved_qty = p.reserved_qty := by
  obtain ⟨p0, hu, hp0, hown, hqle, hdb1⟩ := create_by_farmer_ok h1
  rw [hp] at hp0
  injection hp0 with hp0
  subst hp0
  subst hdb1
  simp only [cancel_contract, lookupA_setk_self, farmerContractRec] at h2
  split at h2
  · exact Except.noConfusion h2
  split at h2
  · exact Except.noConfusion h2
  split at h2
  · exact Except.noConfusion h2
  injection h2 with h2
  subst h2
  refine ⟨_, lookupA_setk_self _ _ _, ?_⟩
  dsimp only
  ring

theorem create_then_reject_reserved {db db1 db2 : DB} {u v : User}
    {req : CreateContractByFarmerRequest} {cid : String}
    {reason : Option String} {now1 now2 : String} {p : Product}
    (hp : lookupA req.product_id db.products = some p)
    (h1 : create_contract_by_farmer u req cid now1 db = .ok db1)
    (h2 : reject_contract v cid reason now2 db1 = .ok db2) :
    ∃ p2, lookupA req.product_id db2.products = some p2 ∧
      p2.reserved_qty = p.reserved_qty := by
  obtain ⟨p0, hu, hp0, hown, hqle, hdb1⟩ := create_by_farmer_ok h1
  rw [hp] at hp0
  injection hp0 with hp0
  subst hp0
  subst hdb1
  simp only [reject_contract, lookupA_setk_self, farmerContractRec] at h2
  split at h2
  · exact Except.noConfusion h2
  split at h2
  · exact Except.noConfusion h2
  split at h2
  · exact Except.noConfusion h2
  injection h2 with h2
  subst h2
  refine ⟨_, lookupA_setk_self _ _ _, ?_⟩
  dsimp only
  ring

/-- One propose/cancel round trip by the proposing farmer. -/
def proposeCancelCycle (u : User) (req : CreateContractByFarmerRequest)
    (cid now : String) (db : DB) : Except ApiError DB :=
  (create_contract_by_farmer u req cid now db).bind (cancel_contract u cid now)

/-- `n` successive propose/cancel round trips of the same request. -/
def cycleN (u : User) (req : CreateContractByFarmerRequest)
    (cid now : String) : ℕ → DB → Except ApiError DB
  | 0, db => .ok db
  | n + 1, db => (proposeCancelCycle u req cid now db).bind (cycleN u req cid now n)

theorem cycleN_reserved {u : User} {req : CreateContractByFarmerRequest}
    {cid now : String} :
    ∀ (n : ℕ) (db db' : DB) (p : Product),
      lookupA req.product_id db.products = some p →
      cycleN u req cid now n db = .ok db' →
      ∃ p', lookupA req.product_id db'.products = some p' ∧
        p'.reserved_qty = p.reserved_qty := by
  intro n
  induction n with
  | zero =>
    intro db db' p hp h
    simp only [cycleN] at h
    injection h with h
    subst h
    exact ⟨p, hp, rfl⟩
  | succ n ih =>
    intro db db' p hp h
    simp only [cycleN] at h
    cases hpc : proposeCancelCycle u req cid now db with
    | error e =>
      rw [hpc] at h
      exact Except.noConfusion h
    | ok dbm =>
      rw [hpc] at h
      simp only [Except.bind] at h
      simp only [proposeCancelCycle] at hpc
      cases hcr : create_contract_by_farmer u req cid now db with
      | error e =>
        rw [hcr] at hpc
        exact Except.noConfusion hpc
      | ok db1 =>
        rw [hcr] at hpc
        simp only [Except.bind] at hpc
        obtain ⟨pm, hpm, hres⟩ := create_then_cancel_reserved hp hcr hpc
        obtain ⟨p', hp', hres'⟩ := ih dbm db' pm hpm h
        exact ⟨p', hp', by rw [hres', hres]⟩

/-- C4: rejecting or cancelling a producer-initiated PENDING contract
restores the listing's `reserved_qty` to exactly its value before the
proposal was created, and `n` propose-then-cancel round trips of the same
quantity leave `reserved_qty` exactly at its initial value (no drift). -/
theorem reject_cancel_restore_reserved :
    (∀ (db db1 db2 : DB) (u v : User) (req : CreateContractByFarmerRequest)
       (cid : String) (reason : Option String) (now1 now2 : String)
       (p : Product),
       lookupA req.product_id db.products = some p →
       create_contract_by_farmer u req cid now1 db = .ok db1 →
       (reject_contract v cid reason now2 db1 = .ok db2 ∨
        cancel_contract v cid now2 db1 = .ok db2) →
       ∃ p2, lookupA req.product_id db2.products = some p2 ∧
         p2.reserved_qty = p.reserved_qty) ∧
    (∀ (n : ℕ) (db db' : DB) (u : User)
       (req : CreateContractByFarmerRequest) (cid now : String)
       (p : Product),
       lookupA req.product_id db.products = some p →
       cycleN u req cid now n db = .ok db' →
       ∃ p', lookupA req.product_id db'.products = some p' ∧
         p'.reserved_qty = p.reserved_qty) := by
  constructor
  · intro db db1 db2 u v req cid reason now1 now2 p hp h1 h2
    rcases h2 with h2 | h2
    · exact create_then_reject_reserved hp h1 h2
    · exact create_then_cancel_reserved hp h1 h2
  · intro n db db' u req cid now p hp h
    exact cycleN_reserved n db db' p hp h

/-- Producer-initiated proposal for 100 kg used in the C4 round trips. -/
def c4req : CreateContractByFarmerRequest :=
  { product_id := "L", price_per_unit := 20, qty := 100, unit := .kg,
    expected_delivery_date := none, notes := none }

def c4C : Contract :=
  { farmer_id := "F", trader_id := none, product_id := "L",
    product_type := "Soybean", price_per_unit := 20, qty := 100,
    unit := "kg", total_value := 2000, status := .PENDING,
    created_by := .farmer, created_at := "u1", accepted_at := none,
    accepted_by := none, completed_at := none, completed_by := none,
    rejected_at := none, rejected_by := none, cancelled_at := none,
    cancelled_by := none, rejection_reason := none,
    expected_delivery_date := none, notes := none }

def c4L1 : Product := { listingL with reserved_qty := 100 }

def c4db1 : DB := { products := [("L", c4L1)], contracts := [("C4", c4C)] }

def c4Ccl : Contract :=
  { c4C with
    status := .CANCELLED
    cancelled_at := some "u1" }

def c4db2 : DB :=
  { products := [("L", listingL)], contracts := [("C4", c4Ccl)] }

theorem c4_step1 : create_contract_by_farmer farmerU c4req "C4" "u1" dbL =
    .ok c4db1 := by
  simp [create_contract_by_farmer, farmerU, c4req, dbL, listingL, lookupA,
    setk, c4db1, c4C, c4L1, UnitType.val]
  try norm_num

theorem c4_step2 : cancel_contract farmerU "C4" "u1" c4db1 = .ok c4db2 := by
  simp [cancel_contract, farmerU, c4db1, c4db2, c4C, c4Ccl, c4L1, listingL,
    lookupA, setk]
  try norm_num

theorem c4_cycle1 : cycleN farmerU c4req "C4" "u1" 1 dbL = .ok c4db2 := by
  have h : cycleN farmerU c4req "C4" "u1" 1 dbL =
      (proposeCancelCycle farmerU c4req "C4" "u1" dbL).bind
        (cycleN farmerU c4req "C4" "u1" 0) := rfl
  rw [h]
  simp only [proposeCancelCycle]
  rw [c4_step1]
  simp only [Except.bind]
  rw [c4_step2]
  simp only [Except.bind, cycleN]

theorem reject_cancel_restore_reserved_witness :
    (∃ p2, lookupA c4req.product_id c4db2.products = some p2 ∧
      p2.reserved_qty = listingL.reserved_qty) ∧
    (∃ p', lookupA c4req.product_id c4db2.products = some p' ∧
      p'.reserved_qty = listingL.reserved_qty) := by
  constructor
  · exact reject_cancel_restore_reserved.1 dbL c4db1 c4db2 farmerU farmerU
      c4req "C4" none "u1" "u1" listingL rfl c4_step1 (Or.inr c4_step2)
  · exact reject_cancel_restore_reserved.2 1 dbL c4db2 farmerU c4req "C4"
      "u1" listingL rfl c4_cycle1

theorem trader_accept_ok {db db' : DB} {u : User} {cid now : String}
    (h : trader_accept_contract u cid now db = .ok db') :
    ∃ c p, u.utype = UserType.trader ∧
      lookupA cid db.contracts = some c ∧
      c.created_by = CreatedBy.farmer ∧
      c.status = ContractStatus.PENDING ∧
      lookupA c.product_id db.products = some p ∧
      db' = { products := setk c.product_id
                { p with reserved_qty := p.reserved_qty - c.qty,
                         committed_qty := p.committed_qty + c.qty,
                         available_qty := p.available_qty - c.qty }
                db.products,
              contracts := setk cid
                { c with trader_id := some u.id,
                         status := ContractStatus.ACTIVE,
                         accepted_at := some now,
                         accepted_by := some u.id }
                db.contracts } := by
  simp only [trader_accept_contract] at h
  split at h
  · exact Except.noConfusion h
  rename_i hu
  split at h
  · exact Except.noConfusion h
  rename_i c hc
  split at h
  · exact Except.noConfusion h
  rename_i hcb
  split at h
  · exact Except.noConfusion h
  rename_i hst
  split at h
  · exact Except.noConfusion h
  rename_i p hp
  injection h with h
  exact ⟨c, p, not_not.mp hu, hc, not_not.mp hcb, not_not.mp hst, hp, h.symm⟩

theorem farmer_accept_ok {db db' : DB} {u : User} {cid now : String}
    (h : farmer_accept_contract u cid now db = .ok db') :
    ∃ c p, u.utype = UserType.farmer ∧
      lookupA cid db.contracts = some c ∧
      c.created_by = CreatedBy.trader ∧
      c.status = ContractStatus.PENDING ∧
      c.farmer_id = u.id ∧
      lookupA c.product_id db.products = some p ∧
      c.qty ≤ p.available_qty ∧
      db' = { products := setk c.product_id
                { p with available_qty := p.available_qty - c.qty,
                         committed_qty := p.committed_qty + c.qty }
                db.products,
              contracts := setk cid
                { c with status := ContractStatus.ACTIVE,
                         accepted_at := some now,
                         accepted_by := some u.id }
                db.contracts } := by
  simp only [farmer_accept_contract] at h
  split at h
  · exact Except.noConfusion h
  rename_i hu
  split at h
  · exact Except.noConfusion h
  rename_i c hc
  split at h
  · exact Except.noConfusion h
  rename_i hcb
  split at h
  · exact Except.noConfusion h
  rename_i hst
  split at h
  · exact Except.noConfusion h
  rename_i hfid
  split at h
  · exact Except.noConfusion h
  rename_i p hp
  split at h
  · exact Except.noConfusion h
  rename_i hqty
  injection h with h
  exact ⟨c, p, not_not.mp hu, hc, not_not.mp hcb, not_not.mp hst,
    not_not.mp hfid, hp, not_lt.mp hqty, h.symm⟩

/-- C5: after a successful accept, a second accept of the same contract (by
any correctly-typed caller, through the same endpoint) fails with the
invalid-state error `contractNotPending`, and the listing's counters were
moved exactly once, by the first accept; the failed second attempt returns
an error and hence changes nothing. -/
theorem accept_twice_invalid_state :
    (∀ (db db' : DB) (u v : User) (cid now now2 : String) (c : Contract)
       (p : Product),
       v.utype = UserType.trader →
       lookupA cid db.contracts = some c →
       lookupA c.product_id db.products = some p →
       trader_accept_contract u cid now db = .ok db' →
       trader_accept_contract v cid now2 db' =
         .error ApiError.contractNotPending ∧
       lookupA c.product_id db'.products = some
         { p with reserved_qty := p.reserved_qty - c.qty,
                  committed_qty := p.committed_qty + c.qty,
                  available_qty := p.available_qty - c.qty }) ∧
    (∀ (db db' : DB) (u v : User) (cid now now2 : String) (c : Contract)
       (p : Product),
       v.utype = UserType.farmer →
       lookupA cid db.contracts = some c →
       lookupA c.product_id db.products = some p →
       farmer_accept_contract u cid now db = .ok db' →
       farmer_accept_contract v cid now2 db' =
         .error ApiError.contractNotPending ∧
       lookupA c.product_id db'.products = some
         { p with available_qty := p.available_qty - c.qty,
                  committed_qty := p.committed_qty + c.qty }) := by
  constructor
  · intro db db' u v cid now now2 c p hv hc hp hacc
    obtain ⟨c0, p0, hu, hc0, hcb, hst, hp0, hdb'⟩ := trader_accept_ok hacc
    rw [hc] at hc0
    injection hc0 with e
    subst e
    rw [hp] at hp0
    injection hp0 with e
    subst e
    subst hdb'
    constructor
    · simp [trader_accept_contract, hv, lookupA_setk_self, hcb]
    · exact lookupA_setk_self _ _ _
  · intro db db' u v cid now now2 c p hv hc hp hacc
    obtain ⟨c0, p0, hu, hc0, hcb, hst, hfid, hp0, hqle, hdb'⟩ :=
      farmer_accept_ok hacc
    rw [hc] at hc0
    injection hc0 with e
    subst e
    rw [hp] at hp0
    injection hp0 with e
    subst e
    subst hdb'
    constructor
    · simp [farmer_accept_contract, hv, lookupA_setk_self, hcb]
    · exact lookupA_setk_self _ _ _

def c5L : Product := { listingL with reserved_qty := 300 }

def c5C : Contract :=
  { farmer_id := "F", trader_id := none, product_id := "L",
    product_type := "Soybean", price_per_unit := 40, qty := 300,
    unit := "kg", total_value := 12000, status := .PENDING,
    created_by := .farmer, created_at := "v0", accepted_at := none,
    accepted_by := none, completed_at := none, completed_by := none,
    rejected_at := none, rejected_by := none, cancelled_at := none,
    cancelled_by := none, rejection_reason := none,
    expected_delivery_date := none, notes := none }

def c5db : DB := { products := [("L", c5L)], contracts := [("C5", c5C)] }

def c5L2 : Product :=
  { listingL with
    reserved_qty := 0
    available_qty := 700
    committed_qty := 300 }

def c5C2 : Contract :=
  { c5C with
    trader_id := some "T"
    status := .ACTIVE
    accepted_at := some "v1"
    accepted_by := some "T" }

def c5db2 : DB := { products := [("L", c5L2)], contracts := [("C5", c5C2)] }

theorem c5_acc1 : trader_accept_contract traderU "C5" "v1" c5db =
    .ok c5db2 := by
  simp [trader_accept_contract, traderU, c5db, c5db2, c5C, c5C2, c5L, c5L2,
    listingL, lookupA, setk]
  try norm_num

def c5P : Product :=
  { farmer_id := "F", ptype := "Mustard", total_qty := 500,
    available_qty := 500, reserved_qty := 0, committed_qty := 0,
    unit := "kg", is_active := true }

def c5D : Contract :=
  { farmer_id := "F", trader_id := some "T", product_id := "P",
    product_type := "Mustard", price_per_unit := 10, qty := 200,
    unit := "kg", total_value := 2000, status := .PENDING,
    created_by := .trader, created_at := "w0", accepted_at := none,
    accepted_by := none, completed_at := none, completed_by := none,
    rejected_at := none, rejected_by := none, cancelled_at := none,
    cancelled_by := none, rejection_reason := none,
    expected_delivery_date := none, notes := none }

def c5dbT : DB := { products := [("P", c5P)], contracts := [("D5", c5D)] }

def c5P2 : Product :=
  { c5P with
    available_qty := 300
    committed_qty := 200 }

def c5D2 : Contract :=
  { c5D with
    status := .ACTIVE
    accepted_at := some "w1"
    accepted_by := some "F" }

def c5dbT2 : DB :=
  { products := [("P", c5P2)], contracts := [("D5", c5D2)] }

theorem c5_acc2 : farmer_accept_contract farmerU "D5" "w1" c5dbT =
    .ok c5dbT2 := by
  simp [farmer_accept_contract, farmerU, c5dbT, c5dbT2, c5D, c5D2, c5P,
    c5P2, lookupA, setk]
  try norm_num

theorem accept_twice_invalid_state_witness :
    (trader_accept_contract traderU "C5" "v2" c5db2 =
       .error ApiError.contractNotPending ∧
     lookupA c5C.product_id c5db2.products = some
       { c5L with
         reserved_qty := c5L.reserved_qty - c5C.qty
         committed_qty := c5L.committed_qty + c5C.qty
         available_qty := c5L.available_qty - c5C.qty }) ∧
    (farmer_accept_contract farmerU "D5" "w2" c5dbT2 =
       .error ApiError.contractNotPending ∧
     lookupA c5D.product_id c5dbT2.products = some
       { c5P with
         available_qty := c5P.available_qty - c5D.qty
         committed_qty := c5P.committed_qty + c5D.qty }) := by
  constructor
  · exact accept_twice_invalid_state.1 c5db c5db2 traderU traderU "C5" "v1"
      "v2" c5C c5L rfl rfl rfl c5_acc1
  · exact accept_twice_invalid_state.2 c5dbT c5dbT2 farmerU farmerU "D5"
      "w1" "w2" c5D c5P rfl rfl rfl c5_acc2

/-- C6 (amended): releasing a reservation — the `reserved_qty -= qty`
performed when a producer-initiated PENDING contract is rejected or
cancelled — is UNCONDITIONAL in the source: there is no negativity check and
no `InvariantViolation`-style error path; the operation succeeds and stores
`reserved_qty - qty` whatever its sign.  (States where this goes negative
are not produced by correct callers, see the reachability invariant.) -/
theorem release_reservation_unchecked :
    (∀ (db : DB) (u : User) (cid : String) (reason : Option String)
       (now : String) (c : Contract) (p : Product),
       lookupA cid db.contracts = some c →
       c.status = ContractStatus.PENDING →
       c.created_by = CreatedBy.farmer →
       u.utype = UserType.trader →
       lookupA c.product_id db.products = some p →
       ∃ db', reject_contract u cid reason now db = .ok db' ∧
         lookupA c.product_id db'.products = some
           { p with reserved_qty := p.reserved_qty - c.qty }) ∧
    (∀ (db : DB) (u : User) (cid now : String) (c : Contract) (p : Product),
       lookupA cid db.contracts = some c →
       c.status = ContractStatus.PENDING →
       c.created_by = CreatedBy.farmer →
       u.utype = UserType.farmer →
       c.farmer_id = u.id →
       lookupA c.product_id db.products = some p →
       ∃ db', cancel_contract u cid now db = .ok db' ∧
         lookupA c.product_id db'.products = some
           { p with reserved_qty := p.reserved_qty - c.qty }) := by
  constructor
  · intro db u cid reason now c p hc hst hcb hu hp
    refine ⟨{ products := setk c.product_id
                { p with reserved_qty := p.reserved_qty - c.qty }
                db.products,
              contracts := setk cid
                { c with status := ContractStatus.REJECTED,
                         rejected_at := some now,
                         rejected_by := some u.id,
                         rejection_reason := reason }
                db.contracts }, ?_, lookupA_setk_self _ _ _⟩
    simp [reject_contract, hc, hst, hcb, hu, hp]
  · intro db u cid now c p hc hst hcb hu hfid hp
    refine ⟨{ products := setk c.product_id
                { p with reserved_qty := p.reserved_qty - c.qty }
                db.products,
              contracts := setk cid
                { c with status := ContractStatus.CANCELLED,
                         cancelled_at := some now }
                db.contracts }, ?_, lookupA_setk_self _ _ _⟩
    simp [cancel_contract, hc, hst, hcb, hu, hfid, hp]

/-- Listing for the C6 counterexample: only 100 kg reserved. -/
def c6L : Product :=
  { farmer_id := "F", ptype := "Sesame", total_qty := 1000,
    available_qty := 900, reserved_qty := 100, committed_qty := 0,
    unit := "kg", is_active := true }

/-- A producer-initiated PENDING contract over 300 kg, more than the
listing's 100 kg reservation balance. -/
def c6C : Contract :=
  { farmer_id := "F", trader_id := none, product_id := "Q",
    product_type := "Sesame", price_per_unit := 70, qty := 300,
    unit := "kg", total_value := 21000, status := .PENDING,
    created_by := .farmer, created_at := "x0", accepted_at := none,
    accepted_by := none, completed_at := none, completed_by := none,
    rejected_at := none, rejected_by := none, cancelled_at := none,
    cancelled_by := none, rejection_reason := none,
    expected_delivery_date := none, notes := none }

def c6db : DB := { products := [("Q", c6L)], contracts := [("C6", c6C)] }

def c6L2 : Product := { c6L with reserved_qty := -200 }

def c6C2 : Contract :=
  { c6C with
    status := .REJECTED
    rejected_at := some "x1"
    rejected_by := some "T" }

def c6db2 : DB := { products := [("Q", c6L2)], contracts := [("C6", c6C2)] }

/-- C6 is false as stated: rejecting a producer-initiated PENDING contract
whose `qty` (300) exceeds the listing's `reserved_qty` (100) does NOT fail —
it succeeds and stores the negative counter `reserved_qty = -200`. -/
theorem c6_reject_step :
    reject_contract traderU "C6" none "x1" c6db = .ok c6db2 := by
  simp [reject_contract, traderU, c6db, c6db2, c6C, c6C2, c6L, c6L2,
    lookupA, setk]
  try norm_num

theorem c6_counterexample :
    reject_contract traderU "C6" none "x1" c6db = .ok c6db2 ∧
    lookupA "Q" c6db2.products = some c6L2 ∧ c6L2.reserved_qty < 0 :=
  ⟨c6_reject_step, rfl, by norm_num [c6L2, c6L]⟩

theorem release_reservation_unchecked_witness :
    (∃ db', reject_contract traderU "C6" none "x1" c6db = .ok db' ∧
       lookupA c6C.product_id db'.products = some
         { c6L with reserved_qty := c6L.reserved_qty - c6C.qty }) ∧
    (∃ db', cancel_contract farmerU "C6" "x2" c6db = .ok db' ∧
       lookupA c6C.product_id db'.products = some
         { c6L with reserved_qty := c6L.reserved_qty - c6C.qty }) := by
  constructor
  · exact release_reservation_unchecked.1 c6db traderU "C6" none "x1" c6C
      c6L rfl rfl rfl rfl rfl
  · exact release_reservation_unchecked.2 c6db farmerU "C6" "x2" c6C c6L
      rfl rfl rfl rfl rfl rfl

/-- An inactive listing (`is_active = false`). -/
def c7L : Product :=
  { farmer_id := "F", ptype := "Groundnut", total_qty := 800,
    available_qty := 800, reserved_qty := 0, committed_qty := 0,
    unit := "kg", is_active := false }

def c7db : DB := { products := [("G", c7L)], contracts := [] }

def c7req : CreateContractByTraderRequest :=
  { farmer_id := "F", product_id := "G", price_per_unit := 60, qty := 100,
    unit := .kg, expected_delivery_date := none, notes := none }

def c7C : Contract :=
  { farmer_id := "F", trader_id := some "T", product_id := "G",
    product_type := "Groundnut", price_per_unit := 60, qty := 100,
    unit := "kg", total_value := 6000, status := .PENDING,
    created_by := .trader, created_at := "y1", accepted_at := none,
    accepted_by := none, completed_at := none, completed_by := none,
    rejected_at := none, rejected_by := none, cancelled_at := none,
    cancelled_by := none, rejection_reason := none,
    expected_delivery_date := none, notes := none }

def c7db2 : DB := { products := [("G", c7L)], contracts := [("C7", c7C)] }

theorem c7_create_step :
    create_contract_by_trader traderU c7req "C7" "y1" c7db = .ok c7db2 := by
  simp [create_contract_by_trader, traderU, c7req, c7db, c7db2, c7L, c7C,
    lookupA, setk, UnitType.val]
  try norm_num

/-- C7 is false as stated: `create_contract_by_trader` never reads
`is_active`, so a buyer-initiated proposal against an inactive listing
succeeds (whenever the numeric checks pass). -/
theorem c7_counterexample :
    c7L.is_active = false ∧
    create_contract_by_trader traderU c7req "C7" "y1" c7db = .ok c7db2 :=
  ⟨rfl, c7_create_step⟩

/-- C7 (amended): a buyer-initiated proposal succeeds only if the listing
exists, belongs to the named farmer, and has `available_qty ≥ qty`
(`is_active` is never checked); on success it stores a PENDING contract and
changes no listing counter. -/
theorem create_by_trader_success_shape :
    ∀ (db db' : DB) (u : User) (req : CreateContractByTraderRequest)
      (cid now : String),
      create_contract_by_trader u req cid now db = .ok db' →
      ∃ p, lookupA req.product_id db.products = some p ∧
        p.farmer_id = req.farmer_id ∧
        req.qty ≤ p.available_qty ∧
        db'.products = db.products ∧
        ∃ c, lookupA cid db'.contracts = some c ∧
          c.status = ContractStatus.PENDING := by
  intro db db' u req cid now h
  simp only [create_contract_by_trader] at h
  split at h
  · exact Except.noConfusion h
  rename_i hu
  split at h
  · exact Except.noConfusion h
  rename_i p hp
  split at h
  · exact Except.noConfusion h
  rename_i hfarm
  split at h
  · exact Except.noConfusion h
  rename_i hqty
  injection h with h
  subst h
  exact ⟨p, hp, (not_not.mp hfarm).symm, not_lt.mp hqty, rfl,
    _, lookupA_setk_self _ _ _, rfl⟩

theorem create_by_trader_success_shape_witness :
    ∃ p, lookupA c7req.product_id c7db.products = some p ∧
      p.farmer_id = c7req.farmer_id ∧
      c7req.qty ≤ p.available_qty ∧
      c7db2.products = c7db.products ∧
      ∃ c, lookupA "C7" c7db2.contracts = some c ∧
        c.status = ContractStatus.PENDING :=
  create_by_trader_success_shape c7db c7db2 traderU c7req "C7" "y1"
    c7_create_step

theorem reject_ok {db db' : DB} {u : User} {cid : String}
    {reason : Option String} {now : String}
    (h : reject_contract u cid reason now db = .ok db') :
    ∃ c, lookupA cid db.contracts = some c ∧
      c.status = ContractStatus.PENDING ∧
      db'.contracts = setk cid
        { c with status := ContractStatus.REJECTED,
                 rejected_at := some now, rejected_by := some u.id,
                 rejection_reason := reason } db.contracts := by
  simp only [reject_contract] at h
  split at h
  · exact Except.noConfusion h
  rename_i c hc
  split at h
  · exact Except.noConfusion h
  rename_i hst
  split at h
  · exact Except.noConfusion h
  split at h
  · exact Except.noConfusion h
  split at h
  · split at h
    · exact Except.noConfusion h
    injection h with h
    subst h
    exact ⟨c, hc, not_not.mp hst, rfl⟩
  · injection h with h
    subst h
    exact ⟨c, hc, not_not.mp hst, rfl⟩

theorem cancel_ok {db db' : DB} {u : User} {cid now : String}
    (h : cancel_contract u cid now db = .ok db') :
    ∃ c, lookupA cid db.contracts = some c ∧
      c.status = ContractStatus.PENDING ∧
      db'.contracts = setk cid
        { c with status := ContractStatus.CANCELLED,
                 cancelled_at := some now } db.contracts := by
  simp only [cancel_contract] at h
  split at h
  · exact Except.noConfusion h
  rename_i c hc
  split at h
  · exact Except.noConfusion h
  rename_i hst
  split at h
  · exact Except.noConfusion h
  split at h
  · exact Except.noConfusion h
  split at h
  · split at h
    · exact Except.noConfusion h
    injection h with h
    subst h
    exact ⟨c, hc, not_not.mp hst, rfl⟩
  · injection h with h
    subst h
    exact ⟨c, hc, not_not.mp hst, rfl⟩

theorem complete_ok {db db' : DB} {u : User} {cid : String} {cb : CreatedBy}
    {now : String} (h : complete_contract u cid cb now db = .ok db') :
    ∃ c, lookupA cid db.contracts = some c ∧
      c.status = ContractStatus.ACTIVE ∧
      db'.contracts = setk cid
        { c with status := ContractStatus.COMPLETED,
                 completed_at := some now,
                 completed_by := some cb.val } db.contracts := by
  simp only [complete_contract] at h
  split at h
  · exact Except.noConfusion h
  rename_i c hc
  split at h
  · exact Except.noConfusion h
  rename_i hst
  split at h
  · exact Except.noConfusion h
  split at h
  · exact Except.noConfusion h
  injection h with h
  subst h
  exact ⟨c, hc, not_not.mp hst, rfl⟩

theorem create_by_trader_contracts {db db' : DB} {u : User}
    {req : CreateContractByTraderRequest} {cid now : String}
    (h : create_contract_by_trader u req cid now db = .ok db') :
    ∃ c₀, db'.contracts = setk cid c₀ db.contracts := by
  simp only [create_contract_by_trader] at h
  split at h
  · exact Except.noConfusion h
  split at h
  · exact Except.noConfusion h
  split at h
  · exact Except.noConfusion h
  split at h
  · exact Except.noConfusion h
  injection h with h
  subst h
  exact ⟨_, rfl⟩

theorem list_product_contracts {db db' : DB} {u : User} {ptype : String}
    {qty : ℚ} {unit : UnitType} {pid : String}
    (h : list_product u ptype qty unit pid db = .ok db') :
    db'.contracts = db.contracts := by
  simp only [list_product] at h
  split at h
  · exact Except.noConfusion h
  injection h with h
  subst h
  rfl

theorem error_of_not_ok {α β : Type} {x : Except α β}
    (h : ∀ b, x ≠ .ok b) : ∃ e, x = .error e := by
  cases x with
  | error e => exact ⟨e, rfl⟩
  | ok b => exact absurd rfl (h b)

/-- C8 (amended): the two accepts and the reject write both the transition
timestamp and the acting user's id; cancel writes only `cancelled_at` and
leaves `cancelled_by` untouched (the source never writes an acting-party id
for cancellation); complete writes `completed_at` and stores the completing
party's ROLE taken from the request body (`completed_by.value`), not the
acting user's id.  Every transition attempted from a status other than the
required source state returns an error (never a silent no-op). -/
theorem transition_audit_fields :
    (∀ (db db' : DB) (u : User) (cid now : String),
       trader_accept_contract u cid now db = .ok db' →
       ∃ c', lookupA cid db'.contracts = some c' ∧
         c'.accepted_at = some now ∧ c'.accepted_by = some u.id) ∧
    (∀ (db db' : DB) (u : User) (cid now : String),
       farmer_accept_contract u cid now db = .ok db' →
       ∃ c', lookupA cid db'.contracts = some c' ∧
         c'.accepted_at = some now ∧ c'.accepted_by = some u.id) ∧
    (∀ (db db' : DB) (u : User) (cid : String) (reason : Option String)
       (now : String),
       reject_contract u cid reason now db = .ok db' →
       ∃ c', lookupA cid db'.contracts = some c' ∧
         c'.rejected_at = some now ∧ c'.rejected_by = some u.id) ∧
    (∀ (db db' : DB) (u : User) (cid now : String) (c : Contract),
       lookupA cid db.contracts = some c →
       cancel_contract u cid now db = .ok db' →
       ∃ c', lookupA cid db'.contracts = some c' ∧
         c'.cancelled_at = some now ∧ c'.cancelled_by = c.cancelled_by) ∧
    (∀ (db db' : DB) (u : User) (cid : String) (cb : CreatedBy)
       (now : String),
       complete_contract u cid cb now db = .ok db' →
       ∃ c', lookupA cid db'.contracts = some c' ∧
         c'.completed_at = some now ∧ c'.completed_by = some cb.val) ∧
    (∀ (db : DB) (u : User) (cid now : String) (c : Contract),
       lookupA cid db.contracts = some c →
       c.status ≠ ContractStatus.PENDING →
       (∃ e, trader_accept_contract u cid now db = .error e) ∧
       (∃ e, farmer_accept_contract u cid now db = .error e) ∧
       (∃ e, cancel_contract u cid now db = .error e)) ∧
    (∀ (db : DB) (u : User) (cid : String) (reason : Option String)
       (now : String) (c : Contract),
       lookupA cid db.contracts = some c →
       c.status ≠ ContractStatus.PENDING →
       ∃ e, reject_contract u cid reason now db = .error e) ∧
    (∀ (db : DB) (u : User) (cid : String) (cb : CreatedBy) (now : String)
       (c : Contract),
       lookupA cid db.contracts = some c →
       c.status ≠ ContractStatus.ACTIVE →
       ∃ e, complete_contract u cid cb now db = .error e) := by
  refine ⟨?_, ?_, ?_, ?_, ?_, ?_, ?_, ?_⟩
  · intro db db' u cid now h
    obtain ⟨c, p, _, _, _, _, _, hdb'⟩ := trader_accept_ok h
    subst hdb'
    exact ⟨_, lookupA_setk_self _ _ _, rfl, rfl⟩
  · intro db db' u cid now h
    obtain ⟨c, p, _, _, _, _, _, _, _, hdb'⟩ := farmer_accept_ok h
    subst hdb'
    exact ⟨_, lookupA_setk_self _ _ _, rfl, rfl⟩
  · intro db db' u cid reason now h
    obtain ⟨c, _, _, hcs⟩ := reject_ok h
    rw [hcs]
    exact ⟨_, lookupA_setk_self _ _ _, rfl, rfl⟩
  · intro db db' u cid now c hc h
    obtain ⟨c0, hc0, _, hcs⟩ := cancel_ok h
    rw [hc] at hc0
    injection hc0 with e
    subst e
    rw [hcs]
    exact ⟨_, lookupA_setk_self _ _ _, rfl, rfl⟩
  · intro db db' u cid cb now h
    obtain ⟨c, _, _, hcs⟩ := complete_ok h
    rw [hcs]
    exact ⟨_, lookupA_setk_self _ _ _, rfl, rfl⟩
  · intro db u cid now c hc hst
    refine ⟨error_of_not_ok ?_, error_of_not_ok ?_, error_of_not_ok ?_⟩
    · intro b hok
      obtain ⟨c0, p0, _, hc0, _, hst0, _⟩ := trader_accept_ok hok
      rw [hc] at hc0
      injection hc0 with e
      subst e
      exact hst hst0
    · intro b hok
      obtain ⟨c0, p0, _, hc0, _, hst0, _⟩ := farmer_accept_ok hok
      rw [hc] at hc0
      injection hc0 with e
      subst e
      exact hst hst0
    · intro b hok
      obtain ⟨c0, hc0, hst0, _⟩ := cancel_ok hok
      rw [hc] at hc0
      injection hc0 with e
      subst e
      exact hst hst0
  · intro db u cid reason now c hc hst
    refine error_of_not_ok ?_
    intro b hok
    obtain ⟨c0, hc0, hst0, _⟩ := reject_ok hok
    rw [hc] at hc0
    injection hc0 with e
    subst e
    exact hst hst0
  · intro db u cid cb now c hc hst
    refine error_of_not_ok ?_
    intro b hok
    obtain ⟨c0, hc0, hst0, _⟩ := complete_ok hok
    rw [hc] at hc0
    injection hc0 with e
    subst e
    exact hst hst0

/-- C8 is false as stated: this successful cancel writes `cancelled_at` but
no acting-party id — the stored contract's `cancelled_by` is `none` (the
source writes no such key), so not every successful transition records the
acting party's user id. -/
theorem c8_counterexample :
    cancel_contract farmerU "C4" "u1" c4db1 = .ok c4db2 ∧
    lookupA "C4" c4db2.contracts = some c4Ccl ∧
    c4Ccl.cancelled_at = some "u1" ∧ c4Ccl.cancelled_by = none :=
  ⟨c4_step2, rfl, rfl, rfl⟩

theorem transition_audit_fields_witness :
    (∃ c', lookupA "C5" c5db2.contracts = some c' ∧
       c'.accepted_at = some "v1" ∧ c'.accepted_by = some traderU.id) ∧
    (∃ c', lookupA "D5" c5dbT2.contracts = some c' ∧
       c'.accepted_at = some "w1" ∧ c'.accepted_by = some farmerU.id) ∧
    (∃ c', lookupA "C6" c6db2.contracts = some c' ∧
       c'.rejected_at = some "x1" ∧ c'.rejected_by = some traderU.id) ∧
    (∃ c', lookupA "C4" c4db2.contracts = some c' ∧
       c'.cancelled_at = some "u1" ∧ c'.cancelled_by = c4C.cancelled_by) ∧
    (∃ c', lookupA "C1" c3Db3.contracts = some c' ∧
       c'.completed_at = some "s3" ∧
       c'.completed_by = some CreatedBy.farmer.val) ∧
    ((∃ e, trader_accept_contract farmerU "C4" "z1" c4db2 = .error e) ∧
     (∃ e, farmer_accept_contract farmerU "C4" "z1" c4db2 = .error e) ∧
     (∃ e, cancel_contract farmerU "C4" "z1" c4db2 = .error e)) ∧
    (∃ e, reject_contract farmerU "C4" none "z1" c4db2 = .error e) ∧
    (∃ e, complete_contract farmerU "C4" CreatedBy.farmer "z1" c4db2 =
      .error e) := by
  obtain ⟨h1, h2, h3, h4, h5, h6, h7, h8⟩ := transition_audit_fields
  refine ⟨h1 c5db c5db2 traderU "C5" "v1" c5_acc1,
    h2 c5dbT c5dbT2 farmerU "D5" "w1" c5_acc2,
    h3 c6db c6db2 traderU "C6" none "x1" c6_reject_step,
    h4 c4db1 c4db2 farmerU "C4" "u1" c4C rfl c4_step2,
    h5 c3Db2 c3Db3 farmerU "C1" CreatedBy.farmer "s3" c3_complete_step,
    h6 c4db2 farmerU "C4" "z1" c4Ccl rfl (by decide),
    h7 c4db2 farmerU "C4" none "z1" c4Ccl rfl (by decide),
    h8 c4db2 farmerU "C4" CreatedBy.farmer "z1" c4Ccl rfl (by decide)⟩

theorem status_impls_pending {c : Contract}
    (hst : c.status = ContractStatus.PENDING) (c' : Contract) :
    ((c.status = ContractStatus.REJECTED ∨
      c.status = ContractStatus.CANCELLED ∨
      c.status = ContractStatus.COMPLETED) → c'.status = c.status) ∧
    (c.status = ContractStatus.ACTIVE →
      c'.status = ContractStatus.ACTIVE ∨
      c'.status = ContractStatus.COMPLETED) := by
  constructor
  · intro h
    rw [hst] at h
    rcases h with h | h | h <;> exact absurd h (by decide)
  · intro h
    rw [hst] at h
    exact absurd h (by decide)

/-- C9: a single successful endpoint call never moves a contract out of
ACTIVE except to COMPLETED, and never changes the status of a REJECTED,
CANCELLED or COMPLETED contract — terminal statuses are frozen.  (Over
`Step`, whose create cases take fresh uuids, this extends to every
reachable-state transition.) -/
theorem terminal_status_frozen :
    ∀ {db db' : DB}, Step db db' →
    ∀ (cid : String) (c : Contract), lookupA cid db.contracts = some c →
      ∃ c', lookupA cid db'.contracts = some c' ∧
        ((c.status = ContractStatus.REJECTED ∨
          c.status = ContractStatus.CANCELLED ∨
          c.status = ContractStatus.COMPLETED) → c'.status = c.status) ∧
        (c.status = ContractStatus.ACTIVE →
          c'.status = ContractStatus.ACTIVE ∨
          c'.status = ContractStatus.COMPLETED) := by
  intro db db' hstep cid c hc
  cases hstep with
  | listProduct u ptype qty unit pid hq hfresh hok =>
    refine ⟨c, ?_, fun _ => rfl, fun h => Or.inl h⟩
    rw [list_product_contracts hok]
    exact hc
  | createByFarmer u req cid0 now hq hp hfresh hok =>
    obtain ⟨p0, _, _, _, _, hdb'⟩ := create_by_farmer_ok hok
    have hne : cid ≠ cid0 := by
      rintro rfl
      rw [hc] at hfresh
      exact Option.noConfusion hfresh
    refine ⟨c, ?_, fun _ => rfl, fun h => Or.inl h⟩
    rw [hdb']
    dsimp only
    rw [lookupA_setk_ne hne]
    exact hc
  | createByTrader u req cid0 now hq hp hfresh hok =>
    obtain ⟨c0, hcs⟩ := create_by_trader_contracts hok
    have hne : cid ≠ cid0 := by
      rintro rfl
      rw [hc] at hfresh
      exact Option.noConfusion hfresh
    refine ⟨c, ?_, fun _ => rfl, fun h => Or.inl h⟩
    rw [hcs, lookupA_setk_ne hne]
    exact hc
  | traderAccept u cid0 now hok =>
    obtain ⟨c0, p0, _, hc0, hcb, hst0, _, hdb'⟩ := trader_accept_ok hok
    by_cases he : cid = cid0
    · subst he
      rw [hc] at hc0
      injection hc0 with e
      subst e
      refine ⟨{ c with
          trader_id := some u.id
          status := ContractStatus.ACTIVE
          accepted_at := some now
          accepted_by := some u.id }, ?_,
        (status_impls_pending hst0 _).1, (status_impls_pending hst0 _).2⟩
      rw [hdb']
      dsimp only
      exact lookupA_setk_self _ _ _
    · refine ⟨c, ?_, fun _ => rfl, fun h => Or.inl h⟩
      rw [hdb']
      dsimp only
      rw [lookupA_setk_ne he]
      exact hc
  | farmerAccept u cid0 now hok =>
    obtain ⟨c0, p0, _, hc0, hcb, hst0, _, _, _, hdb'⟩ := farmer_accept_ok hok
    by_cases he : cid = cid0
    · subst he
      rw [hc] at hc0
      injection hc0 with e
      subst e
      refine ⟨{ c with
          status := ContractStatus.ACTIVE
          accepted_at := some now
          accepted_by := some u.id }, ?_,
        (status_impls_pending hst0 _).1, (status_impls_pending hst0 _).2⟩
      rw [hdb']
      dsimp only
      exact lookupA_setk_self _ _ _
    · refine ⟨c, ?_, fun _ => rfl, fun h => Or.inl h⟩
      rw [hdb']
      dsimp only
      rw [lookupA_setk_ne he]
      exact hc
  | reject u cid0 reason now hok =>
    obtain ⟨c0, hc0, hst0, hcs⟩ := reject_ok hok
    by_cases he : cid = cid0
    · subst he
      rw [hc] at hc0
      injection hc0 with e
      subst e
      refine ⟨{ c with
          status := ContractStatus.REJECTED
          rejected_at := some now
          rejected_by := some u.id
          rejection_reason := reason }, ?_,
        (status_impls_pending hst0 _).1, (status_impls_pending hst0 _).2⟩
      rw [hcs]
      exact lookupA_setk_self _ _ _
    · refine ⟨c, ?_, fun _ => rfl, fun h => Or.inl h⟩
      rw [hcs, lookupA_setk_ne he]
      exact hc
  | cancel u cid0 now hok =>
    obtain ⟨c0, hc0, hst0, hcs⟩ := cancel_ok hok
    by_cases he : cid = cid0
    · subst he
      rw [hc] at hc0
      injection hc0 with e
      subst e
      refine ⟨{ c with
          status := ContractStatus.CANCELLED
          cancelled_at := some now }, ?_,
        (status_impls_pending hst0 _).1, (status_impls_pending hst0 _).2⟩
      rw [hcs]
      exact lookupA_setk_self _ _ _
    · refine ⟨c, ?_, fun _ => rfl, fun h => Or.inl h⟩
      rw [hcs, lookupA_setk_ne he]
      exact hc
  | complete u cid0 cb now hok =>
    obtain ⟨c0, hc0, hst0, hcs⟩ := complete_ok hok
    by_cases he : cid = cid0
    · subst he
      rw [hc] at hc0
      injection hc0 with e
      subst e
      refine ⟨{ c with
          status := ContractStatus.COMPLETED
          completed_at := some now
          completed_by := some cb.val }, ?_, ?_, ?_⟩
      · rw [hcs]
        exact lookupA_setk_self _ _ _
      · intro h
        rw [hst0] at h
        rcases h with h | h | h <;> exact absurd h (by decide)
      · intro h
        exact Or.inr rfl
    · refine ⟨c, ?_, fun _ => rfl, fun h => Or.inl h⟩
      rw [hcs, lookupA_setk_ne he]
      exact hc

/-- A fresh product used to exercise a step against a store that already
holds a terminal (CANCELLED) contract. -/
def c9P : Product :=
  { farmer_id := "F", ptype := "Sesame", total_qty := 10,
    available_qty := 10, reserved_qty := 0, committed_qty := 0,
    unit := "kg", is_active := true }

def c9db : DB :=
  { products := [("L", listingL), ("Z", c9P)],
    contracts := [("C4", c4Ccl)] }

theorem terminal_status_frozen_witness :
    ∃ c', lookupA "C4" c9db.contracts = some c' ∧
      ((c4Ccl.status = ContractStatus.REJECTED ∨
        c4Ccl.status = ContractStatus.CANCELLED ∨
        c4Ccl.status = ContractStatus.COMPLETED) →
        c'.status = c4Ccl.status) ∧
      (c4Ccl.status = ContractStatus.ACTIVE →
        c'.status = ContractStatus.ACTIVE ∨
        c'.status = ContractStatus.COMPLETED) :=
  terminal_status_frozen
    (Step.listProduct c4db2 c9db farmerU "Sesame" 10 .kg "Z" (by norm_num)
      rfl rfl) "C4" c4Ccl rfl

/-- C10: no operation compares a contract's `unit` with its listing's
`unit`.  Both proposal endpoints succeed under the numeric checks alone even
when the request's unit differs from the listing's (the stored contract
carries the request's unit verbatim), and acceptance of a unit-mismatched
contract succeeds and moves the raw `qty` number with no conversion. -/
theorem unit_mismatch_ignored :
    (∀ (db : DB) (u : User) (req : CreateContractByFarmerRequest)
       (cid now : String) (p : Product),
       u.utype = UserType.farmer →
       lookupA req.product_id db.products = some p →
       p.farmer_id = u.id →
       req.qty ≤ p.available_qty - p.reserved_qty →
       req.unit.val ≠ p.unit →
       ∃ db', create_contract_by_farmer u req cid now db = .ok db' ∧
         lookupA req.product_id db'.products = some
           { p with reserved_qty := p.reserved_qty + req.qty } ∧
         ∃ c, lookupA cid db'.contracts = some c ∧
           c.unit = req.unit.val) ∧
    (∀ (db : DB) (u : User) (req : CreateContractByTraderRequest)
       (cid now : String) (p : Product),
       u.utype = UserType.trader →
       lookupA req.product_id db.products = some p →
       req.farmer_id = p.farmer_id →
       req.qty ≤ p.available_qty →
       req.unit.val ≠ p.unit →
       ∃ db', create_contract_by_trader u req cid now db = .ok db' ∧
         db'.products = db.products ∧
         ∃ c, lookupA cid db'.contracts = some c ∧
           c.unit = req.unit.val) ∧
    (∀ (db : DB) (u : User) (cid now : String) (c : Contract) (p : Product),
       u.utype = UserType.farmer →
       lookupA cid db.contracts = some c →
       c.created_by = CreatedBy.trader →
       c.status = ContractStatus.PENDING →
       c.farmer_id = u.id →
       lookupA c.product_id db.products = some p →
       c.qty ≤ p.available_qty →
       c.unit ≠ p.unit →
       ∃ db', farmer_accept_contract u cid now db = .ok db' ∧
         lookupA c.product_id db'.products = some
           { p with available_qty := p.available_qty - c.qty,
                    committed_qty := p.committed_qty + c.qty }) := by
  refine ⟨?_, ?_, ?_⟩
  · intro db u req cid now p hu hp hown hqle hunit
    have hnl : ¬ req.qty > p.available_qty - p.reserved_qty := not_lt.mpr hqle
    refine ⟨{ products := setk req.product_id
                { p with reserved_qty := p.reserved_qty + req.qty }
                db.products,
              contracts := setk cid (farmerContractRec u req p.ptype now)
                db.contracts }, ?_,
      lookupA_setk_self _ _ _, _, lookupA_setk_self _ _ _, rfl⟩
    simp [create_contract_by_farmer, hu, hp, hown, hnl, farmerContractRec]
  · intro db u req cid now p hu hp hfarm hqle hunit
    have hnl : ¬ req.qty > p.available_qty := not_lt.mpr hqle
    refine ⟨{ products := db.products,
              contracts := setk cid
                { farmer_id := req.farmer_id, trader_id := some u.id,
                  product_id := req.product_id, product_type := p.ptype,
                  price_per_unit := req.price_per_unit, qty := req.qty,
                  unit := req.unit.val,
                  total_value := req.price_per_unit * req.qty,
                  status := ContractStatus.PENDING,
                  created_by := CreatedBy.trader, created_at := now,
                  accepted_at := none, accepted_by := none,
                  completed_at := none, completed_by := none,
                  rejected_at := none, rejected_by := none,
                  cancelled_at := none, cancelled_by := none,
                  rejection_reason := none,
                  expected_delivery_date := req.expected_delivery_date,
                  notes := req.notes } db.contracts }, ?_, rfl,
      _, lookupA_setk_self _ _ _, rfl⟩
    simp [create_contract_by_trader, hu, hp, hfarm, hnl]
  · intro db u cid now c p hu hc hcb hst hfid hp hqle hunit
    have hnl : ¬ c.qty > p.available_qty := not_lt.mpr hqle
    refine ⟨{ products := setk c.product_id
                { p with available_qty := p.available_qty - c.qty,
                         committed_qty := p.committed_qty + c.qty }
                db.products,
              contracts := setk cid
                { c with status := ContractStatus.ACTIVE,
                         accepted_at := some now,
                         accepted_by := some u.id } db.contracts }, ?_,
      lookupA_setk_self _ _ _⟩
    simp [farmer_accept_contract, hu, hc, hcb, hst, hfid, hp, hnl]

/-- Producer-initiated proposal in tonnes against the kg listing `"L"`. -/
def c10reqF : CreateContractByFarmerRequest :=
  { product_id := "L", price_per_unit := 5, qty := 10, unit := .tonne,
    expected_delivery_date := none, notes := none }

/-- Buyer-initiated proposal in tonnes against the kg listing `"L"`. -/
def c10reqT : CreateContractByTraderRequest :=
  { farmer_id := "F", product_id := "L", price_per_unit := 5, qty := 10,
    unit := .tonne, expected_delivery_date := none, notes := none }

/-- A trader-created PENDING contract in tonnes over the kg listing. -/
def c10C : Contract :=
  { farmer_id := "F", trader_id := some "T", product_id := "L",
    product_type := "Soybean", price_per_unit := 5, qty := 10,
    unit := "tonne", total_value := 50, status := .PENDING,
    created_by := .trader, created_at := "m0", accepted_at := none,
    accepted_by := none, completed_at := none, completed_by := none,
    rejected_at := none, rejected_by := none, cancelled_at := none,
    cancelled_by := none, rejection_reason := none,
    expected_delivery_date := none, notes := none }

def c10db : DB :=
  { products := [("L", listingL)], contracts := [("M1", c10C)] }

theorem unit_mismatch_ignored_witness :
    (∃ db', create_contract_by_farmer farmerU c10reqF "M2" "m1" c10db =
        .ok db' ∧
      lookupA c10reqF.product_id db'.products = some
        { listingL with reserved_qty := listingL.reserved_qty + c10reqF.qty } ∧
      ∃ c, lookupA "M2" db'.contracts = some c ∧
        c.unit = c10reqF.unit.val) ∧
    (∃ db', create_contract_by_trader traderU c10reqT "M3" "m1" c10db =
        .ok db' ∧
      db'.products = c10db.products ∧
      ∃ c, lookupA "M3" db'.contracts = some c ∧
        c.unit = c10reqT.unit.val) ∧
    (∃ db', farmer_accept_contract farmerU "M1" "m1" c10db = .ok db' ∧
      lookupA c10C.product_id db'.products = some
        { listingL with
            available_qty := listingL.available_qty - c10C.qty,
            committed_qty := listingL.committed_qty + c10C.qty }) := by
  obtain ⟨h1, h2, h3⟩ := unit_mismatch_ignored
  refine ⟨h1 c10db farmerU c10reqF "M2" "m1" listingL rfl rfl rfl
      (by norm_num [c10reqF, listingL]) (by simp [c10reqF, UnitType.val, listingL]),
    h2 c10db traderU c10reqT "M3" "m1" listingL rfl rfl rfl
      (by norm_num [c10reqT, listingL]) (by simp [c10reqT, UnitType.val, listingL]),
    h3 c10db farmerU "M1" "m1" c10C listingL rfl rfl rfl rfl rfl rfl
      (by norm_num [c10C, listingL]) (by simp [c10C, listingL])⟩
